import Mathlib

/-!
Effect lifecycle and frame scheduling of `main.js`.

A shallow embedding of `src/main.js`.  Module-level variables of the script
become fields of `World`; every function of the script becomes a function on
`World`.  DOM elements are identified by a handle (a natural number); numbers
are real numbers (the script's doubles, taken exactly), except in
`launchMissiles`, where a rounded sum decides a loop count and the rounding of
that sum is part of the model.
-/

set_option autoImplicit false

namespace PaymentExample

/-! ## The insertion-ordered `Set` of ECMAScript -/

/-- The `[[SetData]]` list of an ECMAScript `Set` of element handles: entries in
insertion order, a deleted entry being replaced by the `empty` marker (`none`). -/
structure JSSet where
  data : List (Option Nat)

namespace JSSet

/-- JS `new Set()`. -/
def empty : JSSet := ⟨[]⟩

/-- JS `Set.prototype.has`. -/
def has (s : JSSet) (v : Nat) : Bool := s.data.contains (some v)

/-- JS `Set.prototype.add`: appends the value unless it is already present. -/
def add (s : JSSet) (v : Nat) : JSSet :=
  if s.has v then s else ⟨s.data ++ [some v]⟩

/-- JS `Set.prototype.delete`: every entry holding the value becomes `empty`. -/
def delete (s : JSSet) (v : Nat) : JSSet :=
  ⟨s.data.map (fun e => if e = some v then none else e)⟩

/-- JS `Set.prototype.size`: the number of entries that are not `empty`. -/
def size (s : JSSet) : Nat := s.data.countP Option.isSome

/-- The live values in insertion order. -/
def toList (s : JSSet) : List Nat := s.data.filterMap id

/-- The scan of `%SetIteratorPrototype%.next`: starting at entry `idx` of the
remaining entries, skip `empty` entries; return the first value found and the
index after it, or `undefined` (`none`) when the entries are exhausted. -/
def nextFrom : List (Option Nat) → Nat → Option Nat × Nat
  | [], idx => (none, idx)
  | none :: rest, idx => nextFrom rest (idx + 1)
  | some v :: _, idx => (some v, idx + 1)

/-- JS `iterator.next().value` for an iterator of `s.values()` standing at index
`idx`, with the iterator's new index.  The iterator reads the set's current
entries at every call. -/
def next (s : JSSet) (idx : Nat) : Option Nat × Nat :=
  nextFrom (s.data.drop idx) idx

/-- No value is stored twice. -/
def WF (s : JSSet) : Prop := s.toList.Nodup

end JSSet

/-! ## Elements -/

/-- The value assigned to a style property. -/
inductive StyleVal where
  | px (v : ℝ)
  | ms (v : ℝ)
  | deg (v : ℝ)
  | fixed2 (v : ℝ)
  | str (s : String)

/-- A `div` built by one of the spawning routines: its class name and the
style assignments made on it, in program order. -/
structure Effect where
  className : String
  style : List (String × StyleVal)

/-- The bounding rectangle of an element. -/
structure Rect where
  left : ℝ
  top : ℝ
  width : ℝ
  height : ℝ

/-- An `.eye` element: its bounding rectangle and the `translate(x px, y px)`
transform last written to its pupil. -/
structure Eye where
  rect : Rect
  pupilTransform : Option (ℝ × ℝ)

/-- A point `{ x, y }`. -/
structure Point where
  x : ℝ
  y : ℝ

/-- The callbacks handed to `requestAnimationFrame`. -/
inductive FrameCallback where
  | cursorLoop
  | handlePointerFrame
deriving DecidableEq

/-- The module-level state of the script together with the part of the
browser it talks to. -/
structure World where
  /-- JS `eyes`, the `.eye` elements found at start-up. -/
  eyes : List Eye
  /-- JS `cursorTarget`. -/
  cursorTarget : Point
  /-- JS `cursorCurrent`. -/
  cursorCurrent : Point
  /-- JS `cursorRafId`. -/
  cursorRafId : Option Nat
  /-- JS `cursorVisible`. -/
  cursorVisible : Bool
  /-- JS `cursor.style.opacity`. -/
  cursorOpacity : String
  /-- JS `cursor.style.left` and `cursor.style.top`, in px (`none`: not yet set). -/
  cursorStyle : Option Point
  /-- JS `activeEffects`. -/
  activeEffects : JSSet
  /-- JS `lastClickTime`. -/
  lastClickTime : ℝ
  /-- JS `pendingPointer`. -/
  pendingPointer : Option Point
  /-- JS `rafId`. -/
  rafId : Option Nat
  /-- Every element handed to `registerEffect` so far; the handle of an
  element is its index in this list. -/
  elements : List Effect
  /-- The effect elements among the children of `document.body`, in order. -/
  body : List Nat
  /-- Handles that still carry their one-shot `animationend` listener. -/
  listeners : List Nat
  /-- The outcomes of `Math.random()`, in call order. -/
  random : Nat → ℝ
  /-- Number of `Math.random()` calls made so far. -/
  randomCalls : Nat
  /-- Callbacks waiting for the next animation frame, with their request id. -/
  frameQueue : List (Nat × FrameCallback)
  /-- Number of `requestAnimationFrame` calls made so far. -/
  frameRequests : Nat
  /-- Trace: the argument of every `updateEyes` call so far, oldest first. -/
  updateEyesCalls : List Point

def MAX_EFFECTS : Nat := 140

def MIN_CLICK_INTERVAL : ℝ := 120

/-- JS `parent.appendChild(el)`: the node becomes the last child (a node that is
already a child is moved). -/
def appendChild (children : List Nat) (el : Nat) : List Nat :=
  children.filter (fun c => c ≠ el) ++ [el]

/-- JS `el.remove()`. -/
def removeChild (children : List Nat) (el : Nat) : List Nat :=
  children.filter (fun c => c ≠ el)

/-- JS `registerEffect(effect)`. The element gets the next free handle. -/
def registerEffect (effect : Effect) (w : World) : World :=
  let el := w.elements.length
  { w with
    elements := w.elements ++ [effect]
    activeEffects := w.activeEffects.add el
    body := appendChild w.body el
    listeners := w.listeners ++ [el] }

/-- The `animationend` notification of element `el`: runs the one-shot
listener installed by `registerEffect`, if it is still installed. -/
def animationEnd (el : Nat) (w : World) : World :=
  if el ∈ w.listeners then
    { w with
      listeners := w.listeners.filter (fun c => c ≠ el)
      body := removeChild w.body el
      activeEffects := w.activeEffects.delete el }
  else w

/-- The `for (let i = 0; i < excess; i++)` loop of `cleanupOldEffects`, with
`k = excess - i` iterations left and the iterator standing at `idx`. -/
def cleanupLoop : Nat → Nat → World → World
  | 0, _, w => w
  | k + 1, idx, w =>
    match w.activeEffects.next idx with
    | (some el, idx') =>
      cleanupLoop k idx'
        { w with body := removeChild w.body el, activeEffects := w.activeEffects.delete el }
    | (none, idx') => cleanupLoop k idx' w

/-- JS `cleanupOldEffects()`. -/
def cleanupOldEffects (w : World) : World :=
  if w.activeEffects.size ≤ MAX_EFFECTS then w
  else
    let excess := w.activeEffects.size - MAX_EFFECTS
    cleanupLoop excess 0 w

/-! ## The variant catalog -/

/-- An entry of `baseTypes`. -/
structure BaseType where
  name : String
  className : String
  multiplier : ℚ
  count : Option Nat

def baseTypes : List BaseType :=
  [ ⟨"burst", "effect-burst", 1, some 1⟩,
    ⟨"ripple", "effect-ripple", 1.4, some 1⟩,
    ⟨"spark", "effect-spark", 0.25, some 10⟩,
    ⟨"spiral", "effect-spiral", 1.2, some 1⟩,
    ⟨"pulse", "effect-pulse", 1.6, some 1⟩,
    ⟨"comet", "effect-comet", 0.4, some 4⟩ ]

def palettes : List (List String) :=
  [ ["#ff5f6d", "#ffc371"],
    ["#42e695", "#3bb2b8"],
    ["#f953c6", "#b91d73"],
    ["#30cfd0", "#330867"],
    ["#f6d365", "#fda085"],
    ["#a18cd1", "#fbc2eb"],
    ["#fda085", "#f6d365"],
    ["#5ee7df", "#b490ca"],
    ["#c6ffdd", "#fbd786"],
    ["#f7797d", "#c471ed"],
    ["#f8ffae", "#43c6ac"],
    ["#ff9a9e", "#fad0c4"] ]

/-- An entry of `shapes`. -/
structure Shape where
  name : String
  radius : String
  rotate : ℚ

def shapes : List Shape :=
  [ ⟨"circle", "50%", 0⟩,
    ⟨"pill", "50% / 35%", 0⟩,
    ⟨"diamond", "15%", 45⟩,
    ⟨"square", "12%", 0⟩ ]

/-- An entry of `effectVariants`. -/
structure EffectVariant where
  key : String
  name : String
  className : String
  multiplier : ℚ
  count : Option Nat
  palette : List String
  shape : Shape
  duration : ℚ
  size : ℚ

/-- The object pushed for one `(base, palette, shape)` combination. -/
def mkVariant (base : BaseType) (paletteIndex : Nat) (palette : List String)
    (shapeIndex : Nat) (shape : Shape) : EffectVariant :=
  let duration : ℚ := 900 + paletteIndex * 80 + shapeIndex * 45
  let size : ℚ := 70 + paletteIndex * 8
  { key := base.name ++ "-" ++ toString paletteIndex ++ "-" ++ shape.name
    name := base.name
    className := base.className
    multiplier := base.multiplier
    count := base.count
    palette := palette
    shape := shape
    duration := duration * base.multiplier
    size := size * base.multiplier }

/-- JS `effectVariants`, filled by the three nested `forEach` loops. -/
def effectVariants : List EffectVariant :=
  baseTypes.foldl (fun acc base =>
    palettes.enum.foldl (fun acc (p : Nat × List String) =>
      shapes.enum.foldl (fun acc (s : Nat × Shape) =>
        acc ++ [mkVariant base p.1 p.2 s.1 s.2]) acc) acc) []

/-! ## Random numbers -/

/-- JS `Math.random()`. -/
def mathRandom (w : World) : ℝ × World :=
  (w.random w.randomCalls, { w with randomCalls := w.randomCalls + 1 })

/-- JS `rand(min, max)`. -/
def rand (min max : ℝ) (w : World) : ℝ × World :=
  ((mathRandom w).1 * (max - min) + min, (mathRandom w).2)

/-- JS `pick(list)`; `none` is `undefined` (index out of range). -/
noncomputable def pick {α : Type} (list : List α) (w : World) : Option α × World :=
  let i : ℤ := Int.floor ((mathRandom w).1 * (list.length : ℝ))
  (if 0 ≤ i then list[i.toNat]? else none, (mathRandom w).2)

/-! ## Geometry helpers -/

/-- JS `Math.hypot(x, y)`. -/
noncomputable def hypot (x y : ℝ) : ℝ := Real.sqrt (x * x + y * y)

/-- JS `Math.atan2(y, x)`. -/
noncomputable def atan2 (y x : ℝ) : ℝ := Complex.arg ⟨x, y⟩

/-- An entry of the array returned by `getEyeCenters`. -/
structure EyeCenter where
  eye : Eye
  x : ℝ
  y : ℝ

/-- JS `getEyeCenters()`. -/
noncomputable def getEyeCenters (w : World) : List EyeCenter :=
  w.eyes.map (fun eye =>
    let rect := eye.rect
    { eye := eye, x := rect.left + rect.width / 2, y := rect.top + rect.height / 2 })

/-- The body of the `forEach` of `updateEyes`, for one eye. -/
noncomputable def updateEye (event : Point) (eye : Eye) : Eye :=
  let rect := eye.rect
  let centerX := rect.left + rect.width / 2
  let centerY := rect.top + rect.height / 2
  let dx := event.x - centerX
  let dy := event.y - centerY
  let angle := atan2 dy dx
  let distance := min (rect.width * 0.25) (hypot dx dy * 0.2)
  let offsetX := Real.cos angle * distance
  let offsetY := Real.sin angle * distance
  { eye with pupilTransform := some (offsetX, offsetY) }

/-- JS `updateEyes(event)`; `event.clientX`, `event.clientY` are the point's
coordinates. -/
noncomputable def updateEyes (event : Point) (w : World) : World :=
  { w with
    eyes := w.eyes.map (updateEye event)
    updateEyesCalls := w.updateEyesCalls ++ [event] }

/-! ## Animation frames and the cursor follower -/

/-- JS `requestAnimationFrame(callback)`: queues the callback for the next frame
and returns a fresh non-zero request id. -/
def requestAnimationFrame (callback : FrameCallback) (w : World) : Nat × World :=
  (w.frameRequests + 1,
    { w with
      frameQueue := w.frameQueue ++ [(w.frameRequests + 1, callback)]
      frameRequests := w.frameRequests + 1 })

/-- JS `syncCursor(event)`. -/
def syncCursor (event : Point) (w : World) : World :=
  let w := { w with cursorTarget := ⟨event.x, event.y⟩ }
  let w := if !w.cursorVisible then { w with cursorVisible := true, cursorOpacity := "1" } else w
  if w.cursorRafId.isNone then
    { (requestAnimationFrame .cursorLoop w).2 with
      cursorRafId := some (requestAnimationFrame .cursorLoop w).1 }
  else w

/-- The `if`/`else` of `cursorLoop`. -/
noncomputable def cursorLoopBranch (w : World) : World :=
  let dx := w.cursorTarget.x - w.cursorCurrent.x
  let dy := w.cursorTarget.y - w.cursorCurrent.y
  let distance := hypot dx dy
  let stiffness : ℝ := 0.4
  if distance < 0.5 then
    { w with cursorCurrent := ⟨w.cursorTarget.x, w.cursorTarget.y⟩, cursorRafId := none }
  else
    let w := { w with
      cursorCurrent := ⟨w.cursorCurrent.x + dx * stiffness, w.cursorCurrent.y + dy * stiffness⟩ }
    { (requestAnimationFrame .cursorLoop w).2 with
      cursorRafId := some (requestAnimationFrame .cursorLoop w).1 }

/-- JS `cursorLoop()`. -/
noncomputable def cursorLoop (w : World) : World :=
  let w := cursorLoopBranch w
  { w with cursorStyle := some ⟨w.cursorCurrent.x, w.cursorCurrent.y⟩ }

/-- JS `handlePointerFrame()`. -/
noncomputable def handlePointerFrame (w : World) : World :=
  match w.pendingPointer with
  | none => w
  | some pendingPointer =>
    { updateEyes pendingPointer w with pendingPointer := none, rafId := none }

/-- The `pointermove` listener. -/
def onPointerMove (event : Point) (w : World) : World :=
  let w := { w with pendingPointer := some ⟨event.x, event.y⟩ }
  let w :=
    if w.rafId.isNone then
      { (requestAnimationFrame .handlePointerFrame w).2 with
        rafId := some (requestAnimationFrame .handlePointerFrame w).1 }
    else w
  syncCursor event w

/-- Running one queued frame callback. -/
noncomputable def runCallback (w : World) (cb : Nat × FrameCallback) : World :=
  match cb.2 with
  | .cursorLoop => cursorLoop w
  | .handlePointerFrame => handlePointerFrame w

/-- One rendering frame of the browser: the callbacks queued so far are taken
off the queue and run in request order; callbacks they request wait for the
next frame. -/
noncomputable def animationFrame (w : World) : World :=
  w.frameQueue.foldl runCallback { w with frameQueue := [] }

/-! ## Spawning -/

/-- A `click` event: `button`, `clientX`, `clientY`. -/
structure MouseEvent where
  button : Int
  clientX : ℝ
  clientY : ℝ

/-- JS `for (let i = 0; i < n; i++) body(i)`. -/
def forLoop (n : Nat) (body : Nat → World → World) (w : World) : World :=
  (List.range n).foldl (fun w i => body i w) w

/-- JS `list.forEach((x, index) => body(x, index))` for a body that cannot throw. -/
def forEach {α : Type} (list : List α) (body : α → Nat → World → World) (w : World) : World :=
  list.enum.foldl (fun w (ix : Nat × α) => body ix.2 ix.1 w) w

/-- The colour `palette[i]` as a property value. -/
def colorAt (palette : List String) (i : Nat) : StyleVal :=
  .str (palette.getD i "undefined")

/-- The properties every element of `spawnVariantEffects` receives, in program
order. -/
def variantStyle (event : MouseEvent) (variant : EffectVariant) (duration size : ℝ) :
    List (String × StyleVal) :=
  [ ("left", .px event.clientX),
    ("top", .px event.clientY),
    ("translate", .str "-50% -50%"),
    ("--color-main", colorAt variant.palette 0),
    ("--color-secondary", colorAt variant.palette (1 % variant.palette.length)),
    ("--duration", .ms duration),
    ("--size", .px size),
    ("--shape-radius", .str variant.shape.radius) ]

/-- The properties set for a directional element (spark, comet) with the given
`angle` and `distance`. -/
noncomputable def sparkStyle (angle distance : ℝ) : List (String × StyleVal) :=
  let offsetX := Real.cos angle * distance
  let offsetY := Real.sin angle * distance * -1
  [ ("--spark-x", .px offsetX),
    ("--spark-y", .px offsetY),
    ("--comet-x", .px offsetX),
    ("--comet-y", .px offsetY) ]

/-- The `rotate` assignment, made when `variant.shape.rotate` is truthy. -/
def rotateStyle (variant : EffectVariant) : List (String × StyleVal) :=
  if variant.shape.rotate ≠ 0 then [("rotate", .deg (variant.shape.rotate : ℝ))] else []

/-- One iteration of the `for` loop of `spawnVariantEffects`. -/
noncomputable def spawnVariantElement (event : MouseEvent) (variant : EffectVariant)
    (w : World) : World :=
  let d := rand ((variant.duration : ℝ) * 0.8) ((variant.duration : ℝ) * 1.2) w
  let duration := d.1
  let s := rand ((variant.size : ℝ) * 0.8) ((variant.size : ℝ) * 1.2) d.2
  let size := s.1
  let w := s.2
  if variant.className = "effect-spark" ∨ variant.className = "effect-comet" then
    let a := rand 0 (Real.pi * 2) w
    let angle := a.1
    let r := rand 60 200 a.2
    let distance := r.1
    registerEffect
      { className := "effect " ++ variant.className
        style := variantStyle event variant duration size ++ sparkStyle angle distance ++
          rotateStyle variant } r.2
  else
    registerEffect
      { className := "effect " ++ variant.className
        style := variantStyle event variant duration size ++ rotateStyle variant } w

/-- JS `spawnVariantEffects(event)`; `none`: a `TypeError` is thrown because
`pick` returned `undefined`. -/
noncomputable def spawnVariantEffects (event : MouseEvent) (w : World) : Option World :=
  match (pick effectVariants w).1 with
  | none => none
  | some variant =>
    let total := variant.count.getD 1
    some (forLoop total (fun _ w => spawnVariantElement event variant w) (pick effectVariants w).2)

/-- The `beam` element built for one eye centre. -/
noncomputable def beamElement (pointer : Point) (palette : List String) (center : EyeCenter)
    (index : Nat) (duration : ℝ) : Effect :=
  let dx := pointer.x - center.x
  let dy := pointer.y - center.y
  let length := hypot dx dy
  let angle := (atan2 dy dx * 180) / Real.pi
  { className := "effect effect-laser"
    style :=
      [ ("left", .px center.x),
        ("top", .px center.y),
        ("rotate", .deg angle),
        ("--beam-length", .px length),
        ("--duration", .ms duration),
        ("--color-main", colorAt palette (index % palette.length)) ] }

/-- The `burst` element built for one eye centre. -/
def gazeBurstElement (palette : List String) (center : EyeCenter) (index : Nat)
    (duration : ℝ) : Effect :=
  { className := "effect effect-gaze-burst"
    style :=
      [ ("left", .px center.x),
        ("top", .px center.y),
        ("translate", .str "-50% -50%"),
        ("--color-main", colorAt palette ((index + 1) % palette.length)),
        ("--duration", .ms duration) ] }

/-- The body of the `forEach` of `shootEyeBeams` for one eye centre. -/
noncomputable def shootEyeBeam (pointer : Point) (palette : List String) (center : EyeCenter)
    (index : Nat) (w : World) : World :=
  let d := rand 420 680 w
  let w := registerEffect (beamElement pointer palette center index d.1) d.2
  let d := rand 500 900 w
  registerEffect (gazeBurstElement palette center index d.1) d.2

/-- JS `shootEyeBeams(pointer)`; `none`: a `TypeError` is thrown because `pick`
returned `undefined` and the palette is read for an eye. -/
noncomputable def shootEyeBeams (pointer : Point) (w : World) : Option World :=
  let centers := getEyeCenters w
  let p := pick palettes w
  match p.1, centers with
  | _, [] => some p.2
  | none, _ :: _ => none
  | some palette, _ :: _ => some (forEach centers (shootEyeBeam pointer palette) p.2)

/-- JS `drawPointerEcho(pointer)`. -/
def drawPointerEcho (pointer : Point) (w : World) : World :=
  let d := rand 600 1100 w
  registerEffect
    { className := "effect effect-pointer-echo"
      style :=
        [ ("left", .px pointer.x),
          ("top", .px pointer.y),
          ("translate", .str "-50% -50%"),
          ("--duration", .ms d.1) ] } d.2

/-- One iteration of the inner `for` loop of `fireBulletBurst`. -/
noncomputable def fireBullet (pointer : Point) (center : EyeCenter) (w : World) : World :=
  let dx := pointer.x - center.x
  let dy := pointer.y - center.y
  let j := rand (-0.15) 0.15 w
  let jitter := j.1
  let m := rand 0.05 0.3 j.2
  let multiplier := 1 + m.1
  let d := rand 320 520 m.2
  registerEffect
    { className := "effect effect-bullet"
      style :=
        [ ("left", .px center.x),
          ("top", .px center.y),
          ("--travel-x", .px (dx * multiplier + jitter * 80)),
          ("--travel-y", .px (dy * multiplier + jitter * 80)),
          ("--duration", .ms d.1),
          ("--bullet-angle", .deg ((atan2 dy dx * 180) / Real.pi)) ] } d.2

/-- JS `fireBulletBurst(pointer)`. -/
noncomputable def fireBulletBurst (pointer : Point) (w : World) : World :=
  let centers := getEyeCenters w
  forEach centers (fun center _ w => forLoop 3 (fun _ w => fireBullet pointer center w) w) w

/-- One iteration of the loop of `launchMissiles`. -/
noncomputable def launchMissile (pointer : Point) (w : World) : World :=
  let r := rand 220 420 w
  let radius := r.1
  let a := rand (Real.pi * -0.25) (Real.pi * 1.25) r.2
  let angle := a.1
  let startX := pointer.x + Real.cos angle * radius
  let startY := pointer.y + Real.sin angle * radius
  let d := rand 900 1400 a.2
  registerEffect
    { className := "effect effect-missile"
      style :=
        [ ("left", .px pointer.x),
          ("top", .px pointer.y),
          ("translate", .str "-50% -50%"),
          ("--from-x", .px (startX - pointer.x)),
          ("--from-y", .px (startY - pointer.y)),
          ("--duration", .ms d.1),
          ("rotate", .deg ((atan2 (pointer.y - startY) (pointer.x - startX) * 180) / Real.pi)) ] }
    d.2

/-- Rounding of a real to the nearest integer, a tie going to the even one. -/
noncomputable def roundHalfEven (y : ℝ) : ℤ :=
  let n : ℤ := Int.floor y
  if y - (n : ℝ) < 1 / 2 then n
  else if 1 / 2 < y - (n : ℝ) then n + 1
  else if n % 2 = 0 then n
  else n + 1

/-- The double that the addition in `rand(2, 4)` returns for the exact sum `x`
of `[2, 4]`: the doubles of `[2, 4]` are the multiples of `2 ^ (-51)`, and the
sum is rounded to the nearest of them, a tie going to the even significand. -/
noncomputable def roundSum24 (x : ℝ) : ℝ :=
  ((roundHalfEven (x * 2 ^ 51) : ℤ) : ℝ) / 2 ^ 51

/-- JS `launchMissiles(pointer)`.  The value of `rand(2, 4)` decides the number of
loop iterations, so its rounding is modelled: `4 - 2` and the product with `2`
are exact in doubles and the final addition is rounded by `roundSum24`.
`missiles` is an integer-valued number; the loop
`for (let i = 0; i < missiles; i++)` runs `max(missiles, 0)` times. -/
noncomputable def launchMissiles (pointer : Point) (w : World) : World :=
  let m := rand 2 4 w
  let missiles : ℤ := Int.floor (roundSum24 m.1)
  forLoop missiles.toNat (fun _ w => launchMissile pointer w) m.2

/-- One iteration of the loop of `spawnInkTrail`. -/
noncomputable def spawnInkBlob (pointer : Point) (w : World) : World :=
  let a := rand (-Real.pi) Real.pi w
  let angle := a.1
  let r := rand 6 120 a.2
  let radius := r.1
  let d := rand 400 900 r.2
  let sc := rand 0.6 1.4 d.2
  let ro := rand (-25) 25 sc.2
  registerEffect
    { className := "effect effect-ink-trail"
      style :=
        [ ("left", .px (pointer.x - Real.cos angle * radius)),
          ("top", .px (pointer.y - Real.sin angle * radius)),
          ("translate", .str "-50% -50%"),
          ("--duration", .ms d.1),
          ("--blob-scale", .fixed2 sc.1),
          ("--blob-rotate", .deg ro.1) ] } ro.2

/-- JS `spawnInkTrail(pointer)`. -/
noncomputable def spawnInkTrail (pointer : Point) (w : World) : World :=
  let blobs := 14
  forLoop blobs (fun _ w => spawnInkBlob pointer w) w

/-- The body of the `forEach` of `dropTears`. -/
def dropTear (center : EyeCenter) (w : World) : World :=
  let dd := rand 140 240 w
  let d := rand 900 1200 dd.2
  registerEffect
    { className := "effect effect-tear"
      style :=
        [ ("left", .px center.x),
          ("top", .px center.y),
          ("translate", .str "-50% -50%"),
          ("--drop-distance", .px dd.1),
          ("--duration", .ms d.1) ] } d.2

/-- JS `dropTears()`. -/
noncomputable def dropTears (w : World) : World :=
  let centers := getEyeCenters w
  forEach centers (fun center _ w => dropTear center w) w

/-- The body of the `forEach` of `chainLightning`. -/
noncomputable def lightningBolt (pointer : Point) (center : EyeCenter) (w : World) : World :=
  let dx := pointer.x - center.x
  let dy := pointer.y - center.y
  let length := hypot dx dy
  let d := rand 260 420 w
  registerEffect
    { className := "effect effect-lightning"
      style :=
        [ ("left", .px center.x),
          ("top", .px center.y),
          ("rotate", .deg ((atan2 dy dx * 180) / Real.pi)),
          ("--beam-length", .px length),
          ("--duration", .ms d.1) ] } d.2

/-- JS `chainLightning(pointer)`. -/
noncomputable def chainLightning (pointer : Point) (w : World) : World :=
  let centers := getEyeCenters w
  forEach centers (fun center _ w => lightningBolt pointer center w) w

/-- One iteration of the loop of `bubbleBurst`. -/
noncomputable def spawnBubble (pointer : Point) (w : World) : World :=
  let a := rand (Real.pi * -0.3) (Real.pi * 0.3) w
  let angle := a.1
  let r := rand 80 200 a.2
  let distance := r.1
  let up := rand 40 120 r.2
  let d := rand 1200 2000 up.2
  let sz := rand 40 90 d.2
  registerEffect
    { className := "effect effect-bubble"
      style :=
        [ ("left", .px pointer.x),
          ("top", .px pointer.y),
          ("translate", .str "-50% -50%"),
          ("--bubble-x", .px (Real.cos angle * distance)),
          ("--bubble-y", .px (-|Real.sin angle * distance| - up.1)),
          ("--duration", .ms d.1),
          ("--bubble-size", .px sz.1) ] } sz.2

/-- JS `bubbleBurst(pointer)`. -/
noncomputable def bubbleBurst (pointer : Point) (w : World) : World :=
  let bubbles := 8
  forLoop bubbles (fun _ w => spawnBubble pointer w) w

/-- One iteration of the star loop of `portalSummon`. -/
noncomputable def spawnMiniStar (pointer : Point) (w : World) : World :=
  let a := rand 0 (Real.pi * 2) w
  let angle := a.1
  let r := rand 80 200 a.2
  let distance := r.1
  let d := rand 800 1400 r.2
  registerEffect
    { className := "effect effect-mini-star"
      style :=
        [ ("left", .px pointer.x),
          ("top", .px pointer.y),
          ("translate", .str "-50% -50%"),
          ("--star-x", .px (Real.cos angle * distance)),
          ("--star-y", .px (Real.sin angle * distance)),
          ("--duration", .ms d.1) ] } d.2

/-- JS `portalSummon(pointer)`. -/
noncomputable def portalSummon (pointer : Point) (w : World) : World :=
  let d := rand 900 1500 w
  let w := registerEffect
    { className := "effect effect-portal"
      style :=
        [ ("left", .px pointer.x),
          ("top", .px pointer.y),
          ("translate", .str "-50% -50%"),
          ("--duration", .ms d.1) ] } d.2
  let stars := 4
  forLoop stars (fun _ w => spawnMiniStar pointer w) w

/-- JS `audioPulse(pointer)`. -/
def audioPulse (pointer : Point) (w : World) : World :=
  let rings := 3
  forLoop rings (fun i w =>
    registerEffect
      { className := "effect effect-audio-ring"
        style :=
          [ ("left", .px pointer.x),
            ("top", .px pointer.y),
            ("translate", .str "-50% -50%"),
            ("--duration", .ms (600 + (i : ℝ) * 200)),
            ("--ring-delay", .ms ((i : ℝ) * 60)) ] } w) w

/-- JS `droneOrbit(pointer)`. -/
def droneOrbit (pointer : Point) (w : World) : World :=
  let o := rand 60 140 w
  let dx := rand (-40) 40 o.2
  let dy := rand (-40) 40 dx.2
  let d := rand 1200 1700 dy.2
  registerEffect
    { className := "effect effect-drone"
      style :=
        [ ("left", .px pointer.x),
          ("top", .px pointer.y),
          ("translate", .str "-50% -50%"),
          ("--orbit-radius", .px o.1),
          ("--dash-x", .px dx.1),
          ("--dash-y", .px dy.1),
          ("--duration", .ms d.1) ] } d.2

/-- One iteration of the loop of `coinMagnet`. -/
noncomputable def spawnCoin (pointer : Point) (w : World) : World :=
  let a := rand 0 (Real.pi * 2) w
  let startAngle := a.1
  let r := rand 120 260 a.2
  let startRadius := r.1
  let d := rand 700 1100 r.2
  registerEffect
    { className := "effect effect-coin"
      style :=
        [ ("left", .px pointer.x),
          ("top", .px pointer.y),
          ("translate", .str "-50% -50%"),
          ("--coin-from-x", .px (Real.cos startAngle * startRadius)),
          ("--coin-from-y", .px (Real.sin startAngle * startRadius)),
          ("--duration", .ms d.1) ] } d.2

/-- JS `coinMagnet(pointer)`. -/
noncomputable def coinMagnet (pointer : Point) (w : World) : World :=
  let coins := 6
  forLoop coins (fun _ w => spawnCoin pointer w) w

/-- One iteration of the loop of `pixelDisperse`. -/
noncomputable def spawnPixel (pointer : Point) (w : World) : World :=
  let a := rand 0 (Real.pi * 2) w
  let angle := a.1
  let r := rand 20 140 a.2
  let distance := r.1
  let d := rand 500 900 r.2
  registerEffect
    { className := "effect effect-pixel"
      style :=
        [ ("left", .px pointer.x),
          ("top", .px pointer.y),
          ("translate", .str "-50% -50%"),
          ("--pixel-x", .px (Real.cos angle * distance)),
          ("--pixel-y", .px (Real.sin angle * distance)),
          ("--duration", .ms d.1) ] } d.2

/-- JS `pixelDisperse(pointer)`. -/
noncomputable def pixelDisperse (pointer : Point) (w : World) : World :=
  let pixels := 24
  forLoop pixels (fun _ w => spawnPixel pointer w) w

/-- JS `specialAttacks`; an attack returns `none` when it throws. -/
noncomputable def specialAttacks : List (Point → World → Option World) :=
  [ shootEyeBeams,
    fun pointer w => some (fireBulletBurst pointer w),
    fun pointer w => some (launchMissiles pointer w),
    fun pointer w => some (spawnInkTrail pointer w),
    fun _ w => some (dropTears w),
    fun pointer w => some (chainLightning pointer w),
    fun pointer w => some (bubbleBurst pointer w),
    fun pointer w => some (portalSummon pointer w),
    fun pointer w => some (audioPulse pointer w),
    fun pointer w => some (droneOrbit pointer w),
    fun pointer w => some (coinMagnet pointer w),
    fun pointer w => some (pixelDisperse pointer w) ]

/-- JS `spawnEffect(event)`, the `click` listener; `now` is the value returned by
`performance.now()`.  `none`: the handler is aborted by a `TypeError`. -/
noncomputable def spawnEffect (event : MouseEvent) (now : ℝ) (w : World) : Option World :=
  if event.button ≠ 0 then some w
  else if now - w.lastClickTime < MIN_CLICK_INTERVAL then some w
  else
    let w := { w with lastClickTime := now }
    let pointer : Point := ⟨event.clientX, event.clientY⟩
    match spawnVariantEffects event w with
    | none => none
    | some w =>
      match (pick specialAttacks w).1 with
      | none => none
      | some attack =>
        match attack pointer (pick specialAttacks w).2 with
        | none => none
        | some w => some (cleanupOldEffects (drawPointerEcho pointer w))

/-! ## Events -/

/-- The events the script reacts to. -/
inductive Event where
  /-- A `click`, with the reading of `performance.now()` in its handler. -/
  | click (event : MouseEvent) (now : ℝ)
  /-- The `animationend` notification of the element with handle `el`. -/
  | animationEnd (el : Nat)
  /-- A `pointermove` at `(clientX, clientY)`. -/
  | pointerMove (event : Point)
  /-- A rendering frame. -/
  | frame

/-- The reaction to one event. -/
noncomputable def step (e : Event) (w : World) : Option World :=
  match e with
  | .click event now => spawnEffect event now w
  | .animationEnd el => some (animationEnd el w)
  | .pointerMove event => some (onPointerMove event w)
  | .frame => some (animationFrame w)

/-- The reaction to a sequence of events, oldest first. -/
noncomputable def run : List Event → World → Option World
  | [], w => some w
  | e :: es, w =>
    match step e w with
    | none => none
    | some w => run es w

/-- The state when the script has been loaded, for the given eyes, viewport
size and outcomes of `Math.random()`. -/
noncomputable def initial (eyes : List Eye) (innerWidth innerHeight : ℝ) (random : Nat → ℝ) : World :=
  { eyes := eyes
    cursorTarget := ⟨innerWidth / 2, innerHeight / 2⟩
    cursorCurrent := ⟨innerWidth / 2, innerHeight / 2⟩
    cursorRafId := none
    cursorVisible := true
    cursorOpacity := ""
    cursorStyle := none
    activeEffects := JSSet.empty
    lastClickTime := 0
    pendingPointer := none
    rafId := none
    elements := []
    body := []
    listeners := []
    random := random
    randomCalls := 0
    frameQueue := []
    frameRequests := 0
    updateEyesCalls := [] }

/-! ## Auxiliary definitions used in the statements -/

/-- A world whose live set holds the 141 handles `0, ..., 140`, all children of the body. -/
noncomputable def crowdedWorld : World :=
  { initial [] 0 0 (fun _ => 0) with
    activeEffects := ⟨(List.range 141).map some⟩
    body := List.range 141 }

/-- A property of the world kept by registering an element and by drawing a random number. -/
structure Closed (P : World → Prop) : Prop where
  register : ∀ e w, P w → P (registerEffect e w)
  draw : ∀ w, P w → P { w with randomCalls := w.randomCalls + 1 }

/-- Outcomes of `Math.random()` lie in `[0, 1)`. -/
def RandomOK (w : World) : Prop := ∀ i, 0 ≤ w.random i ∧ w.random i < 1

/-- A click passes both guards of `spawnEffect` and reaches the spawning code. -/
def accepts (event : MouseEvent) (now : ℝ) (w : World) : Prop :=
  event.button = 0 ∧ ¬ (now - w.lastClickTime < MIN_CLICK_INTERVAL)

/-- Whether a click is accepted is decidable. -/
noncomputable instance acceptsDecidable (event : MouseEvent) (now : ℝ) (w : World) :
    Decidable (accepts event now w) := by
  unfold accepts
  exact inferInstance

/-- The timestamps of the accepted clicks of an event sequence, oldest first. -/
noncomputable def acceptedTimes : List Event → World → List ℝ
  | [], _ => []
  | e :: es, w =>
    let rest := match step e w with
      | some w' => acceptedTimes es w'
      | none => []
    match e with
    | .click event now => if accepts event now w then now :: rest else rest
    | _ => rest

/-- The part of the state that pointer moves and frames never touch. -/
def clickState (w : World) : JSSet × (Nat → ℝ) × ℝ × List Effect :=
  (w.activeEffects, w.random, w.lastClickTime, w.elements)

/-- A world with one eye of width 40 centred at `(400, 300)`. -/
noncomputable def oneEyeWorld : World :=
  initial [⟨⟨380, 280, 40, 40⟩, none⟩] 800 600 (fun _ => 0)

/-- The distance between the cursor's current position and its target. -/
noncomputable def cursorDistance (w : World) : ℝ :=
  hypot (w.cursorTarget.x - w.cursorCurrent.x) (w.cursorTarget.y - w.cursorCurrent.y)

/-- The cursor follower at `(0, 0)` heading for `(100, 100)`, its loop scheduled. -/
noncomputable def cursorWorld : World :=
  { initial [] 200 200 (fun _ => 0) with
    cursorCurrent := ⟨0, 0⟩
    cursorTarget := ⟨100, 100⟩
    cursorRafId := some 1
    frameQueue := [(1, .cursorLoop)]
    frameRequests := 1 }

/-- The part of the state the cursor loop reads and writes. -/
def cursorState (w : World) :
    Point × Point × Option Nat × List (Nat × FrameCallback) × Nat :=
  (w.cursorTarget, w.cursorCurrent, w.cursorRafId, w.frameQueue, w.frameRequests)

/-- Number of `cursorLoop` callbacks waiting in the frame queue. -/
def cursorCallbacks (w : World) : Nat :=
  w.frameQueue.countP (fun cb => cb.2 = .cursorLoop)

/-- Number of elements handed to `registerEffect` between state `w` and the later state `w'`. -/
def registered (w w' : World) : Nat := w'.elements.length - w.elements.length

/-- A world without eyes. -/
noncomputable def noEyesWorld : World := initial [] 800 600 (fun _ => 0)

/-- A world with two eyes of width 40 centred at `(400, 300)` and `(600, 300)`. -/
noncomputable def twoEyesWorld : World :=
  initial [⟨⟨380, 280, 40, 40⟩, none⟩, ⟨⟨580, 280, 40, 40⟩, none⟩] 1000 600 (fun _ => 0)

/-- The beam and the burst registered for one eye centre. -/
def IsBeamPair (pointer : Point) (x y : ℝ) (es : List Effect) : Prop :=
  ∃ beam burst, es = [beam, burst] ∧
    beam.className = "effect effect-laser" ∧
    beam.style.lookup "left" = some (.px x) ∧
    beam.style.lookup "top" = some (.px y) ∧
    beam.style.lookup "--beam-length" = some (.px (hypot (pointer.x - x) (pointer.y - y))) ∧
    burst.className = "effect effect-gaze-burst" ∧
    burst.style.lookup "left" = some (.px x) ∧
    burst.style.lookup "top" = some (.px y)

/-- The directional element registered by one iteration for a spark or comet
variant, when the iteration starts after `rc` random draws. -/
def IsDirectional (random : Nat → ℝ) (rc : Nat) (es : List Effect) : Prop :=
  ∃ el angle distance, es = [el] ∧
    angle = random (rc + 2) * (Real.pi * 2 - 0) + 0 ∧
    distance = random (rc + 3) * (200 - 60) + 60 ∧
    el.style.lookup "--spark-x" = some (.px (Real.cos angle * distance)) ∧
    el.style.lookup "--spark-y" = some (.px (Real.sin angle * distance * -1)) ∧
    el.style.lookup "--comet-x" = some (.px (Real.cos angle * distance)) ∧
    el.style.lookup "--comet-y" = some (.px (Real.sin angle * distance * -1))

/-- Number of `handlePointerFrame` callbacks waiting in the frame queue. -/
def outstanding (w : World) : Nat :=
  w.frameQueue.countP (fun cb => cb.2 = .handlePointerFrame)

/-- How one event changes the sample that is waiting for a frame. -/
def sampleStep (pending : Option Point) : Event → Option Point
  | .pointerMove event => some event
  | .frame => none
  | _ => pending

/-- The sample of the most recent pointer move not yet followed by a frame. -/
def latestSample (evs : List Event) : Option Point := evs.foldl sampleStep none

/-- Number of rendering frames among the events. -/
def framesFired : List Event → Nat
  | [] => 0
  | .frame :: es => framesFired es + 1
  | _ :: es => framesFired es

/-- The event is a pointer move or a rendering frame. -/
def Event.isMoveOrFrame : Event → Bool
  | .pointerMove _ => true
  | .frame => true
  | _ => false

/-- The pointer tracker's invariant: at most one callback waits, and one waits
exactly when a sample is stored, exactly when `rafId` is set. -/
def PointerInv (w : World) : Prop :=
  outstanding w ≤ 1 ∧ (outstanding w = 1 ↔ w.pendingPointer.isSome) ∧
  (w.rafId.isSome ↔ w.pendingPointer.isSome)

/-- A world whose random source always returns `0.4`. -/
noncomputable def sparkWorld : World := initial [] 800 600 (fun _ => 0.4)

/-- Three clicks (the second too early, the third with the secondary button)
and the completion of the first element. -/
noncomputable def sampleClicks : List Event :=
  [ .click ⟨0, 500, 300⟩ 1000,
    .click ⟨0, 510, 300⟩ 1050,
    .animationEnd 0,
    .click ⟨2, 520, 300⟩ 5000,
    .click ⟨0, 530, 300⟩ 6000 ]

/-- Two moves before a frame, then a second frame. -/
noncomputable def sampleMoves : List Event :=
  [ .pointerMove ⟨10, 10⟩, .pointerMove ⟨20, 25⟩, .frame, .frame ]

/-! ## Theorems -/

theorem JSSet.size_eq_length (s : JSSet) : s.size = s.toList.length := by
  unfold JSSet.size JSSet.toList
  induction s.data with
  | nil => rfl
  | cons a l ih => cases a <;> simp [List.countP_cons, List.filterMap_cons, ih]

theorem nextFrom_none (suf : List (Option Nat)) (idx : Nat) (h : suf.filterMap id = []) :
    (JSSet.nextFrom suf idx).1 = none := by
  induction suf generalizing idx with
  | nil => rfl
  | cons a l ih =>
    cases a with
    | none => simp only [List.filterMap_cons, id] at h; simpa [JSSet.nextFrom] using ih _ h
    | some v => simp only [List.filterMap_cons, id] at h; exact absurd h (by simp)

theorem nextFrom_some (suf : List (Option Nat)) (idx : Nat) (v : Nat) (vs : List Nat)
    (h : suf.filterMap id = v :: vs) :
    ∃ m suf', suf = List.replicate m none ++ some v :: suf' ∧ suf'.filterMap id = vs ∧
      JSSet.nextFrom suf idx = (some v, idx + m + 1) := by
  induction suf generalizing idx with
  | nil => simp at h
  | cons a l ih =>
    cases a with
    | none =>
      simp only [List.filterMap_cons, id] at h
      obtain ⟨m, suf', h1, h2, h3⟩ := ih (idx + 1) h
      refine ⟨m + 1, suf', ?_, h2, ?_⟩
      · simp [List.replicate_succ, h1]
      · simp [JSSet.nextFrom, h3]; omega
    | some u =>
      simp only [List.filterMap_cons, id, List.cons.injEq] at h
      obtain ⟨rfl, h2⟩ := h
      exact ⟨0, l, by simp, h2, by simp [JSSet.nextFrom]⟩

theorem map_delete_of_not_mem (l : List (Option Nat)) (v : Nat) (h : v ∉ l.filterMap id) :
    l.map (fun e => if e = some v then none else e) = l := by
  induction l with
  | nil => rfl
  | cons a l ih =>
    cases a with
    | none => simp only [List.filterMap_cons, id] at h; simp [ih h]
    | some u =>
      simp only [List.filterMap_cons, id, List.mem_cons, not_or] at h
      have : u ≠ v := fun e => h.1 e.symm
      simp [ih h.2, this]

theorem map_delete_all_none (l : List (Option Nat)) (v : Nat) (h : ∀ e ∈ l, e = none) :
    l.map (fun e => if e = some v then none else e) = l := by
  induction l with
  | nil => rfl
  | cons a l ih =>
    have ha : a = none := h a (by simp)
    subst ha
    simp [ih (fun e he => h e (by simp [he]))]

theorem filterMap_all_none (l : List (Option Nat)) (h : ∀ e ∈ l, e = none) :
    l.filterMap id = [] := by
  induction l with
  | nil => rfl
  | cons a l ih =>
    have ha : a = none := h a (by simp)
    subst ha
    simp [List.filterMap_cons, ih (fun e he => h e (by simp [he]))]

theorem cleanupLoop_spec (k : Nat) : ∀ (idx : Nat) (w : World) (pre suf : List (Option Nat)),
    w.activeEffects.data = pre ++ suf → pre.length = idx → (∀ e ∈ pre, e = none) →
    (suf.filterMap id).Nodup → k ≤ (suf.filterMap id).length →
    (cleanupLoop k idx w).activeEffects.toList = (suf.filterMap id).drop k ∧
    (cleanupLoop k idx w).body = w.body.filter (fun c => c ∉ (suf.filterMap id).take k) := by
  induction k with
  | zero =>
    intro idx w pre suf hd _ hpre _ _
    simp [cleanupLoop, JSSet.toList, hd, filterMap_all_none pre hpre]
  | succ k ih =>
    intro idx w pre suf hd hlen hpre hnd hk
    cases hvs : suf.filterMap id with
    | nil => simp [hvs] at hk
    | cons v vs =>
      obtain ⟨m, suf', h1, h2, h3⟩ := nextFrom_some suf idx v vs hvs
      rw [hvs] at hnd hk
      have hv : v ∉ vs := (List.nodup_cons.mp hnd).1
      have hnext : w.activeEffects.next idx = (some v, idx + m + 1) := by
        subst hlen
        simp [JSSet.next, hd, h3]
      simp only [cleanupLoop, hnext]
      have hpre' : ∀ e ∈ pre ++ List.replicate m none ++ [none], e = (none : Option Nat) := by
        intro e he
        simp at he
        rcases he with he | he | he
        · exact hpre e he
        · exact he.2
        · exact he
      have := ih (idx + m + 1)
        { w with body := removeChild w.body v, activeEffects := w.activeEffects.delete v }
        (pre ++ List.replicate m none ++ [none]) suf'
        (by
          simp only [JSSet.delete, hd, h1, List.map_append, List.map_cons]
          rw [map_delete_all_none pre v hpre, map_delete_of_not_mem suf' v (h2 ▸ hv)]
          simp)
        (by simp [hlen]; omega) hpre' (h2 ▸ (List.nodup_cons.mp hnd).2) (by simp [h2] at hk ⊢; omega)
      rw [h2] at this
      refine ⟨by simpa using this.1, ?_⟩
      rw [this.2]
      simp only [removeChild, List.filter_filter, List.take_succ_cons]
      apply List.filter_congr
      intro c _
      simp only [List.mem_cons, not_or, decide_not, Bool.and_eq_true, Bool.not_eq_true',
        decide_eq_false_iff_not, Bool.decide_and, ne_eq]
      rw [Bool.and_comm]

theorem nextFrom_none_idx (suf : List (Option Nat)) (idx : Nat) (h : ∀ e ∈ suf, e = none) :
    JSSet.nextFrom suf idx = (none, idx + suf.length) := by
  induction suf generalizing idx with
  | nil => rfl
  | cons a l ih =>
    have ha : a = none := h a (by simp)
    subst ha
    simp only [JSSet.nextFrom, List.length_cons]
    rw [ih _ (fun e he => h e (by simp [he]))]
    congr 1; omega

theorem countP_map_delete_le (l : List (Option Nat)) (v : Nat) :
    (l.map (fun e => if e = some v then none else e)).countP Option.isSome
      ≤ l.countP Option.isSome := by
  induction l with
  | nil => simp
  | cons a l ih =>
    cases a with
    | none =>
      simp only [List.map_cons, List.countP_cons]
      simpa using ih
    | some u =>
      simp only [List.map_cons, List.countP_cons]
      by_cases hu : u = v
      · simp only [hu, if_true, Option.isSome_none, Bool.false_eq_true, if_false,
          Option.isSome_some]
        omega
      · have : ¬ (some u = some v) := by simpa using hu
        simp only [this, if_false, Option.isSome_some, if_true]
        omega

theorem countP_all_none (l : List (Option Nat)) (h : ∀ e ∈ l, e = none) :
    l.countP Option.isSome = 0 := by
  rw [List.countP_eq_zero]
  intro e he
  simp [h e he]

theorem cleanupLoop_size (k : Nat) : ∀ (idx : Nat) (w : World) (pre suf : List (Option Nat)),
    w.activeEffects.data = pre ++ suf → pre.length = idx → (∀ e ∈ pre, e = none) →
    (cleanupLoop k idx w).activeEffects.size ≤ suf.countP Option.isSome - k := by
  induction k with
  | zero =>
    intro idx w pre suf hd _ hpre
    simp [cleanupLoop, JSSet.size, hd, countP_all_none pre hpre]
  | succ k ih =>
    intro idx w pre suf hd hlen hpre
    subst hlen
    cases hvs : suf.filterMap id with
    | nil =>
      have hsuf : ∀ e ∈ suf, e = none := by
        intro e he
        cases e with
        | none => rfl
        | some u =>
          have : u ∈ suf.filterMap id := by
            rw [List.mem_filterMap]; exact ⟨some u, he, rfl⟩
          rw [hvs] at this; simp at this
      have hnext : w.activeEffects.next pre.length = (none, pre.length + suf.length) := by
        simp [JSSet.next, hd, nextFrom_none_idx suf _ hsuf]
      simp only [cleanupLoop, hnext]
      have := ih (pre.length + suf.length) w (pre ++ suf) [] (by simp [hd]) (by simp)
        (by
          intro e he
          rcases List.mem_append.mp he with he | he
          · exact hpre e he
          · exact hsuf e he)
      simp only [List.countP_nil, Nat.zero_sub, Nat.le_zero] at this
      omega
    | cons v vs =>
      obtain ⟨m, suf', h1, h2, h3⟩ := nextFrom_some suf pre.length v vs hvs
      have hnext : w.activeEffects.next pre.length = (some v, pre.length + m + 1) := by
        simp [JSSet.next, hd, h3]
      simp only [cleanupLoop, hnext]
      have hpre' : ∀ e ∈ pre ++ List.replicate m none ++ [none], e = (none : Option Nat) := by
        intro e he
        simp at he
        rcases he with he | he | he
        · exact hpre e he
        · exact he.2
        · exact he
      have := ih (pre.length + m + 1)
        { w with body := removeChild w.body v, activeEffects := w.activeEffects.delete v }
        (pre ++ List.replicate m none ++ [none])
        (suf'.map (fun e => if e = some v then none else e))
        (by
          simp only [JSSet.delete, hd, h1, List.map_append, List.map_cons]
          rw [map_delete_all_none pre v hpre]
          simp)
        (by simp; omega) hpre'
      have h4 := countP_map_delete_le suf' v
      have h5 : suf.countP Option.isSome = suf'.countP Option.isSome + 1 := by
        rw [h1, List.countP_append, List.countP_cons]
        simp [countP_all_none (List.replicate m (none : Option Nat)) (by intro e he; exact (List.mem_replicate.mp he).2)]
      omega

theorem cleanupOldEffects_size_le (w : World) :
    (cleanupOldEffects w).activeEffects.size ≤ MAX_EFFECTS := by
  unfold cleanupOldEffects
  split
  · assumption
  · have := cleanupLoop_size (w.activeEffects.size - MAX_EFFECTS) 0 w [] w.activeEffects.data
      (by simp) rfl (by simp)
    simp only [JSSet.size] at this ⊢
    omega

/-- C1: `cleanupOldEffects` on a live set without repeated handles, holding `n` effects in
insertion order (`n` is both `size` and the length of the list of live handles).  If
`n ≤ 140` the world is unchanged.  If `n > 140` the live set becomes the old list without
its first `n - 140` handles, that is the 140 most recently inserted handles in their
insertion order, its size is 140, and exactly the `n - 140` oldest handles are removed
from the children of `document.body`. -/
theorem cleanupOldEffects_evicts_oldest (w : World) (h : w.activeEffects.WF) :
    w.activeEffects.size = w.activeEffects.toList.length ∧
    (w.activeEffects.size ≤ 140 → cleanupOldEffects w = w) ∧
    (140 < w.activeEffects.size →
      (cleanupOldEffects w).activeEffects.toList =
        w.activeEffects.toList.drop (w.activeEffects.size - 140) ∧
      (cleanupOldEffects w).activeEffects.size = 140 ∧
      (cleanupOldEffects w).body =
        w.body.filter (fun c => c ∉ w.activeEffects.toList.take (w.activeEffects.size - 140))) := by
  refine ⟨JSSet.size_eq_length _, ?_, ?_⟩
  · intro hle
    simp [cleanupOldEffects, MAX_EFFECTS, hle]
  · intro hlt
    have hnot : ¬ w.activeEffects.size ≤ MAX_EFFECTS := by simp [MAX_EFFECTS]; omega
    have hs := JSSet.size_eq_length w.activeEffects
    have := cleanupLoop_spec (w.activeEffects.size - MAX_EFFECTS) 0 w [] w.activeEffects.data
      (by simp) rfl (by simp) h (by simp only [JSSet.toList] at hs; omega)
    simp only [cleanupOldEffects, hnot, if_false]
    refine ⟨this.1, ?_, this.2⟩
    rw [JSSet.size_eq_length, this.1]
    simp only [MAX_EFFECTS, JSSet.toList] at hs ⊢
    simp only [List.length_drop]
    omega

theorem crowded_toList : crowdedWorld.activeEffects.toList = List.range 141 := by
  simp only [crowdedWorld, JSSet.toList]
  rw [List.filterMap_map]
  simp

theorem cleanupOldEffects_evicts_oldest_witness :
    crowdedWorld.activeEffects.WF ∧
    (cleanupOldEffects crowdedWorld).activeEffects.toList = (List.range 141).drop 1 ∧
    (cleanupOldEffects crowdedWorld).body = (List.range 141).filter (fun c => c ∉ [0]) := by
  have hwf : crowdedWorld.activeEffects.WF := by
    simp only [JSSet.WF, crowded_toList]; exact List.nodup_range 141
  have h := cleanupOldEffects_evicts_oldest crowdedWorld hwf
  have hsize : crowdedWorld.activeEffects.size = 141 := by
    rw [h.1, crowded_toList]; simp
  have h2 := h.2.2 (by omega)
  rw [hsize, crowded_toList] at h2
  exact ⟨hwf, h2.1, by simpa [crowdedWorld] using h2.2.2⟩

theorem rand_closed {P : World → Prop} (hc : Closed P) (a b : ℝ) (w : World) (h : P w) :
    P (rand a b w).2 := hc.draw w h

theorem pick_closed {P : World → Prop} (hc : Closed P) {α : Type} (l : List α) (w : World)
    (h : P w) : P (pick l w).2 := hc.draw w h

theorem forLoop_closed {P : World → Prop} (n : Nat) (body : Nat → World → World)
    (hb : ∀ i w, P w → P (body i w)) (w : World) (h : P w) : P (forLoop n body w) := by
  unfold forLoop
  induction List.range n generalizing w with
  | nil => exact h
  | cons i l ih => exact ih _ (hb i w h)

theorem forEach_closed {P : World → Prop} {α : Type} (l : List α)
    (body : α → Nat → World → World)
    (hb : ∀ x i w, P w → P (body x i w)) (w : World) (h : P w) : P (forEach l body w) := by
  unfold forEach
  induction l.enum generalizing w with
  | nil => exact h
  | cons i l ih => exact ih _ (hb _ _ w h)

theorem spawnVariantElement_closed {P : World → Prop} (hc : Closed P) (event : MouseEvent)
    (variant : EffectVariant) (w : World) (h : P w) : P (spawnVariantElement event variant w) := by
  unfold spawnVariantElement
  dsimp only
  split <;>
  repeat (first | apply hc.register | apply rand_closed hc | exact h)

theorem shootEyeBeam_closed {P : World → Prop} (hc : Closed P) (pointer : Point)
    (palette : List String) (center : EyeCenter) (index : Nat) (w : World) (h : P w) :
    P (shootEyeBeam pointer palette center index w) := by
  unfold shootEyeBeam
  dsimp only
  repeat (first | apply hc.register | apply rand_closed hc | exact h)

theorem drawPointerEcho_closed {P : World → Prop} (hc : Closed P) (pointer : Point)
    (w : World) (h : P w) : P (drawPointerEcho pointer w) := by
  unfold drawPointerEcho
  dsimp only
  repeat (first | apply hc.register | apply rand_closed hc | exact h)

theorem fireBulletBurst_closed {P : World → Prop} (hc : Closed P) (pointer : Point)
    (w : World) (h : P w) : P (fireBulletBurst pointer w) := by
  unfold fireBulletBurst
  dsimp only
  apply forEach_closed _ _ _ _ h
  intro center _ w h
  apply forLoop_closed _ _ _ _ h
  intro _ w h
  unfold fireBullet
  dsimp only
  repeat (first | apply hc.register | apply rand_closed hc | exact h)

theorem launchMissiles_closed {P : World → Prop} (hc : Closed P) (pointer : Point)
    (w : World) (h : P w) : P (launchMissiles pointer w) := by
  unfold launchMissiles
  dsimp only
  apply forLoop_closed _ _ _ _ (rand_closed hc _ _ _ h)
  intro _ w h
  unfold launchMissile
  dsimp only
  repeat (first | apply hc.register | apply rand_closed hc | exact h)

theorem spawnInkTrail_closed {P : World → Prop} (hc : Closed P) (pointer : Point)
    (w : World) (h : P w) : P (spawnInkTrail pointer w) := by
  unfold spawnInkTrail
  dsimp only
  apply forLoop_closed _ _ _ _ h
  intro _ w h
  unfold spawnInkBlob
  dsimp only
  repeat (first | apply hc.register | apply rand_closed hc | exact h)

theorem dropTears_closed {P : World → Prop} (hc : Closed P)
    (w : World) (h : P w) : P (dropTears w) := by
  unfold dropTears
  dsimp only
  apply forEach_closed _ _ _ _ h
  intro _ _ w h
  unfold dropTear
  dsimp only
  repeat (first | apply hc.register | apply rand_closed hc | exact h)

theorem chainLightning_closed {P : World → Prop} (hc : Closed P) (pointer : Point)
    (w : World) (h : P w) : P (chainLightning pointer w) := by
  unfold chainLightning
  dsimp only
  apply forEach_closed _ _ _ _ h
  intro _ _ w h
  unfold lightningBolt
  dsimp only
  repeat (first | apply hc.register | apply rand_closed hc | exact h)

theorem bubbleBurst_closed {P : World → Prop} (hc : Closed P) (pointer : Point)
    (w : World) (h : P w) : P (bubbleBurst pointer w) := by
  unfold bubbleBurst
  dsimp only
  apply forLoop_closed _ _ _ _ h
  intro _ w h
  unfold spawnBubble
  dsimp only
  repeat (first | apply hc.register | apply rand_closed hc | exact h)

theorem portalSummon_closed {P : World → Prop} (hc : Closed P) (pointer : Point)
    (w : World) (h : P w) : P (portalSummon pointer w) := by
  unfold portalSummon
  dsimp only
  apply forLoop_closed _ _ _ _ (hc.register _ _ (rand_closed hc _ _ _ h))
  intro _ w h
  unfold spawnMiniStar
  dsimp only
  repeat (first | apply hc.register | apply rand_closed hc | exact h)

theorem audioPulse_closed {P : World → Prop} (hc : Closed P) (pointer : Point)
    (w : World) (h : P w) : P (audioPulse pointer w) := by
  unfold audioPulse
  dsimp only
  apply forLoop_closed _ _ _ _ h
  intro _ w h
  exact hc.register _ _ h

theorem droneOrbit_closed {P : World → Prop} (hc : Closed P) (pointer : Point)
    (w : World) (h : P w) : P (droneOrbit pointer w) := by
  unfold droneOrbit
  dsimp only
  repeat (first | apply hc.register | apply rand_closed hc | exact h)

theorem coinMagnet_closed {P : World → Prop} (hc : Closed P) (pointer : Point)
    (w : World) (h : P w) : P (coinMagnet pointer w) := by
  unfold coinMagnet
  dsimp only
  apply forLoop_closed _ _ _ _ h
  intro _ w h
  unfold spawnCoin
  dsimp only
  repeat (first | apply hc.register | apply rand_closed hc | exact h)

theorem pixelDisperse_closed {P : World → Prop} (hc : Closed P) (pointer : Point)
    (w : World) (h : P w) : P (pixelDisperse pointer w) := by
  unfold pixelDisperse
  dsimp only
  apply forLoop_closed _ _ _ _ h
  intro _ w h
  unfold spawnPixel
  dsimp only
  repeat (first | apply hc.register | apply rand_closed hc | exact h)

theorem shootEyeBeams_closed {P : World → Prop} (hc : Closed P) (pointer : Point)
    (w w' : World) (h : P w) (hs : shootEyeBeams pointer w = some w') : P w' := by
  unfold shootEyeBeams at hs
  dsimp only at hs
  split at hs
  · cases hs; exact pick_closed hc _ _ h
  · cases hs
  · cases hs
    apply forEach_closed _ _ _ _ (pick_closed hc _ _ h)
    intro _ _ w h
    exact shootEyeBeam_closed hc _ _ _ _ _ h

theorem spawnVariantEffects_closed {P : World → Prop} (hc : Closed P) (event : MouseEvent)
    (w w' : World) (h : P w) (hs : spawnVariantEffects event w = some w') : P w' := by
  unfold spawnVariantEffects at hs
  split at hs
  · cases hs
  · cases hs
    apply forLoop_closed _ _ _ _ (pick_closed hc _ _ h)
    intro _ w h
    exact spawnVariantElement_closed hc _ _ _ h

theorem specialAttacks_closed {P : World → Prop} (hc : Closed P)
    (attack : Point → World → Option World) (ha : attack ∈ specialAttacks) (pointer : Point)
    (w w' : World) (h : P w) (hs : attack pointer w = some w') : P w' := by
  simp only [specialAttacks, List.mem_cons, List.mem_singleton, List.not_mem_nil, or_false] at ha
  rcases ha with rfl | rfl | rfl | rfl | rfl | rfl | rfl | rfl | rfl | rfl | rfl | rfl
  · exact shootEyeBeams_closed hc _ _ _ h hs
  · cases hs; exact fireBulletBurst_closed hc _ _ h
  · cases hs; exact launchMissiles_closed hc _ _ h
  · cases hs; exact spawnInkTrail_closed hc _ _ h
  · cases hs; exact dropTears_closed hc _ h
  · cases hs; exact chainLightning_closed hc _ _ h
  · cases hs; exact bubbleBurst_closed hc _ _ h
  · cases hs; exact portalSummon_closed hc _ _ h
  · cases hs; exact audioPulse_closed hc _ _ h
  · cases hs; exact droneOrbit_closed hc _ _ h
  · cases hs; exact coinMagnet_closed hc _ _ h
  · cases hs; exact pixelDisperse_closed hc _ _ h

theorem foldl_append_flatMap {α β : Type} (f : α → List β) (g : List β → α → List β)
    (hg : ∀ acc x, g acc x = acc ++ f x) (xs : List α) (init : List β) :
    xs.foldl g init = init ++ xs.flatMap f := by
  induction xs generalizing init with
  | nil => simp
  | cons x xs ih => simp [List.foldl_cons, hg, ih, List.flatMap_cons, List.append_assoc]

theorem getElem?_flatMap_block {α β : Type} (f : α → List β) (m : Nat) (xs : List α)
    (hm : ∀ x ∈ xs, (f x).length = m) (i j : Nat) (hj : j < m) :
    (xs.flatMap f)[m * i + j]? = (xs[i]?).bind (fun x => (f x)[j]?) := by
  induction xs generalizing i with
  | nil => simp
  | cons x xs ih =>
    have hx : (f x).length = m := hm x (by simp)
    cases i with
    | zero =>
      simp only [List.flatMap_cons, Nat.mul_zero, Nat.zero_add, List.getElem?_cons_zero,
        Option.some_bind]
      rw [List.getElem?_append_left (by omega)]
    | succ i =>
      simp only [List.flatMap_cons, List.getElem?_cons_succ]
      rw [List.getElem?_append_right (by rw [hx, Nat.mul_succ]; omega)]
      rw [hx, ← ih (fun y hy => hm y (by simp [hy]))]
      congr 1
      rw [Nat.mul_succ]; omega

/-- The catalog as the product of the three tables. -/
theorem effectVariants_eq :
    effectVariants = baseTypes.flatMap (fun base =>
      palettes.enum.flatMap (fun p =>
        shapes.enum.flatMap (fun s => [mkVariant base p.1 p.2 s.1 s.2]))) := by
  unfold effectVariants
  rw [foldl_append_flatMap (fun base =>
      palettes.enum.flatMap (fun p =>
        shapes.enum.flatMap (fun s => [mkVariant base p.1 p.2 s.1 s.2])))]
  · simp
  · intro acc base
    rw [foldl_append_flatMap (fun p =>
        shapes.enum.flatMap (fun s => [mkVariant base p.1 p.2 s.1 s.2]))]
    intro acc p
    rw [foldl_append_flatMap (fun s => [mkVariant base p.1 p.2 s.1 s.2])]
    intro acc s
    rfl

theorem effectVariants_getElem? (a p s : Nat) (hp : p < 12) (hs : s < 4) :
    effectVariants[48 * a + 4 * p + s]? =
      (baseTypes[a]?).bind (fun base => (palettes[p]?).bind (fun palette =>
        (shapes[s]?).map (fun shape => mkVariant base p palette s shape))) := by
  rw [effectVariants_eq, Nat.add_assoc,
    getElem?_flatMap_block _ 48 baseTypes (by intro x _; rfl) a (4 * p + s) (by omega)]
  congr 1
  funext base
  rw [getElem?_flatMap_block _ 4 palettes.enum (by intro x _; rfl) p s hs, List.getElem?_enum]
  cases palettes[p]? with
  | none => rfl
  | some palette =>
    simp only [Option.map_some', Option.some_bind]
    have := getElem?_flatMap_block (fun (s : Nat × Shape) => [mkVariant base p palette s.1 s.2])
      1 shapes.enum (by intro x _; rfl) s 0 (by omega)
    simp only [Nat.one_mul, Nat.add_zero] at this
    rw [this, List.getElem?_enum]
    cases shapes[s]? <;> rfl

set_option maxRecDepth 100000 in
theorem effectVariants_length : effectVariants.length = 288 := by rfl

/-- C4: `effectVariants` has 288 entries; the entry at index `48 * a + 4 * p + s` is built
from archetype `a`, palette `p` and shape `s` (archetype-major, then palette, then shape),
and its duration is `(900 + 80 * p + 45 * s) * multiplier` and its size
`(70 + 8 * p) * multiplier` as exact rationals, the multipliers being
1, 1.4, 0.25, 1.2, 1.6, 0.4. -/
theorem effectVariants_catalog :
    effectVariants.length = 288 ∧
    ∀ (a : Fin 6) (p : Fin 12) (s : Fin 4),
      ∃ base palette shape v,
        baseTypes[a.val]? = some base ∧ palettes[p.val]? = some palette ∧
        shapes[s.val]? = some shape ∧
        effectVariants[48 * a.val + 4 * p.val + s.val]? = some v ∧
        v.name = base.name ∧ v.palette = palette ∧ v.shape = shape ∧
        base.multiplier = ([1, 1.4, 0.25, 1.2, 1.6, 0.4] : List ℚ).getD a.val 0 ∧
        v.duration = (900 + 80 * (p.val : ℚ) + 45 * (s.val : ℚ)) * base.multiplier ∧
        v.size = (70 + 8 * (p.val : ℚ)) * base.multiplier := by
  refine ⟨effectVariants_length, ?_⟩
  intro a p s
  have ha : a.val < baseTypes.length := a.isLt
  have hp : p.val < palettes.length := p.isLt
  have hs : s.val < shapes.length := s.isLt
  refine ⟨baseTypes[a.val], palettes[p.val], shapes[s.val],
    mkVariant baseTypes[a.val] p.val palettes[p.val] s.val shapes[s.val],
    List.getElem?_eq_getElem ha, List.getElem?_eq_getElem hp, List.getElem?_eq_getElem hs,
    ?_, rfl, rfl, rfl, ?_, ?_, ?_⟩
  · rw [effectVariants_getElem? _ _ _ p.isLt s.isLt, List.getElem?_eq_getElem ha,
      List.getElem?_eq_getElem hp, List.getElem?_eq_getElem hs]
    rfl
  · fin_cases a <;> rfl
  · simp only [mkVariant]; ring
  · simp only [mkVariant]; ring

theorem closed_random (r : Nat → ℝ) : Closed (fun w => w.random = r) :=
  ⟨fun _ _ h => h, fun _ h => h⟩

theorem closed_lastClickTime (t : ℝ) : Closed (fun w => w.lastClickTime = t) :=
  ⟨fun _ _ h => h, fun _ h => h⟩

theorem pick_some {α : Type} (l : List α) (w : World) (hr : RandomOK w) (hl : 0 < l.length) :
    ∃ x, (pick l w).1 = some x ∧ x ∈ l := by
  obtain ⟨h0, h1⟩ := hr w.randomCalls
  have hlen : (0 : ℝ) < (l.length : ℝ) := by exact_mod_cast hl
  have hnn : 0 ≤ Int.floor (w.random w.randomCalls * (l.length : ℝ)) :=
    Int.floor_nonneg.mpr (mul_nonneg h0 hlen.le)
  have hlt : Int.floor (w.random w.randomCalls * (l.length : ℝ)) < (l.length : ℤ) := by
    rw [Int.floor_lt]
    push_cast
    calc w.random w.randomCalls * (l.length : ℝ) < 1 * (l.length : ℝ) :=
          mul_lt_mul_of_pos_right h1 hlen
      _ = (l.length : ℝ) := one_mul _
  have hidx : (Int.floor (w.random w.randomCalls * (l.length : ℝ))).toNat < l.length := by
    omega
  refine ⟨l[(Int.floor (w.random w.randomCalls * (l.length : ℝ))).toNat], ?_, List.getElem_mem _⟩
  simp only [pick, mathRandom, hnn, if_true]
  exact List.getElem?_eq_getElem hidx

theorem spawnVariantEffects_total (event : MouseEvent) (w : World) (hr : RandomOK w) :
    ∃ w', spawnVariantEffects event w = some w' := by
  obtain ⟨v, hv, _⟩ := pick_some effectVariants w hr (by rw [effectVariants_length]; omega)
  unfold spawnVariantEffects
  rw [hv]
  exact ⟨_, rfl⟩

theorem shootEyeBeams_total (pointer : Point) (w : World) (hr : RandomOK w) :
    ∃ w', shootEyeBeams pointer w = some w' := by
  obtain ⟨v, hv, _⟩ := pick_some palettes w hr (by decide)
  unfold shootEyeBeams
  dsimp only
  rw [hv]
  split
  · exact ⟨_, rfl⟩
  · rename_i h _; cases h
  · exact ⟨_, rfl⟩

theorem specialAttacks_total (attack : Point → World → Option World)
    (ha : attack ∈ specialAttacks) (pointer : Point) (w : World) (hr : RandomOK w) :
    ∃ w', attack pointer w = some w' := by
  simp only [specialAttacks, List.mem_cons, List.mem_singleton, List.not_mem_nil, or_false] at ha
  rcases ha with rfl | rfl | rfl | rfl | rfl | rfl | rfl | rfl | rfl | rfl | rfl | rfl
  · exact shootEyeBeams_total pointer w hr
  all_goals exact ⟨_, rfl⟩

theorem cleanupLoop_other {α : Type} (f : World → α)
    (hf : ∀ (w : World) (b : List Nat) (a : JSSet), f { w with body := b, activeEffects := a } = f w)
    (k : Nat) : ∀ (idx : Nat) (w : World), f (cleanupLoop k idx w) = f w := by
  induction k with
  | zero => intro idx w; rfl
  | succ k ih =>
    intro idx w
    simp only [cleanupLoop]
    split
    · rw [ih, hf]
    · rw [ih]

theorem cleanupOldEffects_other {α : Type} (f : World → α)
    (hf : ∀ (w : World) (b : List Nat) (a : JSSet), f { w with body := b, activeEffects := a } = f w)
    (w : World) : f (cleanupOldEffects w) = f w := by
  unfold cleanupOldEffects
  split
  · rfl
  · exact cleanupLoop_other f hf _ _ _

/-- What an accepted click does: the state after the guards, the three spawning
steps and the final clean-up. -/
theorem spawnEffect_accepted (event : MouseEvent) (now : ℝ) (w : World) (hr : RandomOK w)
    (hb : event.button = 0) (ht : ¬ (now - w.lastClickTime < MIN_CLICK_INTERVAL)) :
    ∃ w₁ w₂ attack,
      spawnVariantEffects event { w with lastClickTime := now } = some w₁ ∧
      attack ∈ specialAttacks ∧ (pick specialAttacks w₁).1 = some attack ∧
      attack ⟨event.clientX, event.clientY⟩ (pick specialAttacks w₁).2 = some w₂ ∧
      spawnEffect event now w
        = some (cleanupOldEffects (drawPointerEcho ⟨event.clientX, event.clientY⟩ w₂)) ∧
      w₂.random = w.random ∧ w₂.lastClickTime = now := by
  obtain ⟨w₁, h1⟩ := spawnVariantEffects_total event { w with lastClickTime := now } hr
  have hr1 : w₁.random = w.random :=
    spawnVariantEffects_closed (closed_random w.random) event { w with lastClickTime := now } w₁ rfl h1
  have ht1 : w₁.lastClickTime = now :=
    spawnVariantEffects_closed (closed_lastClickTime now) event { w with lastClickTime := now } w₁ rfl h1
  have hrok1 : RandomOK w₁ := by intro i; rw [hr1]; exact hr i
  obtain ⟨attack, ha, hmem⟩ := pick_some specialAttacks w₁ hrok1 (by decide)
  have hr1' : (pick specialAttacks w₁).2.random = w.random :=
    pick_closed (closed_random w.random) _ _ hr1
  have ht1' : (pick specialAttacks w₁).2.lastClickTime = now :=
    pick_closed (closed_lastClickTime now) _ _ ht1
  obtain ⟨w₂, h2⟩ := specialAttacks_total attack hmem ⟨event.clientX, event.clientY⟩
    (pick specialAttacks w₁).2 (by intro i; rw [hr1']; exact hr i)
  refine ⟨w₁, w₂, attack, h1, hmem, ha, h2, ?_,
    specialAttacks_closed (closed_random w.random) attack hmem _ _ _ hr1' h2,
    specialAttacks_closed (closed_lastClickTime now) attack hmem _ _ _ ht1' h2⟩
  unfold spawnEffect
  simp only [hb, ne_eq, not_true_eq_false, if_false, ht, h1, ha, h2]

theorem spawnEffect_accepted_fields (event : MouseEvent) (now : ℝ) (w : World) (hr : RandomOK w)
    (hb : event.button = 0) (ht : ¬ (now - w.lastClickTime < MIN_CLICK_INTERVAL)) :
    ∃ w', spawnEffect event now w = some w' ∧ w'.random = w.random ∧ w'.lastClickTime = now ∧
      w'.activeEffects.size ≤ MAX_EFFECTS := by
  obtain ⟨w₁, w₂, attack, _, _, _, _, h, hr2, ht2⟩ := spawnEffect_accepted event now w hr hb ht
  refine ⟨_, h, ?_, ?_, cleanupOldEffects_size_le _⟩
  · rw [cleanupOldEffects_other (fun w => w.random) (fun _ _ _ => rfl)]
    exact drawPointerEcho_closed (closed_random w.random) _ _ hr2
  · rw [cleanupOldEffects_other (fun w => w.lastClickTime) (fun _ _ _ => rfl)]
    exact drawPointerEcho_closed (closed_lastClickTime now) _ _ ht2

theorem spawnEffect_ignored (event : MouseEvent) (now : ℝ) (w : World)
    (h : event.button ≠ 0 ∨ now - w.lastClickTime < MIN_CLICK_INTERVAL) :
    spawnEffect event now w = some w := by
  unfold spawnEffect
  rcases h with h | h
  · simp [h]
  · simp [h]

theorem cursorLoop_clickState (w : World) : clickState (cursorLoop w) = clickState w := by
  unfold cursorLoop cursorLoopBranch
  dsimp only
  split <;> rfl

theorem handlePointerFrame_clickState (w : World) :
    clickState (handlePointerFrame w) = clickState w := by
  unfold handlePointerFrame
  split <;> rfl

theorem animationFrame_clickState (w : World) : clickState (animationFrame w) = clickState w := by
  unfold animationFrame
  have : ∀ (q : List (Nat × FrameCallback)) (w' : World),
      clickState (q.foldl runCallback w') = clickState w' := by
    intro q
    induction q with
    | nil => intro w'; rfl
    | cons cb q ih =>
      intro w'
      rw [List.foldl_cons, ih]
      unfold runCallback
      split
      · exact cursorLoop_clickState w'
      · exact handlePointerFrame_clickState w'
  rw [this]
  rfl

theorem onPointerMove_clickState (event : Point) (w : World) :
    clickState (onPointerMove event w) = clickState w := by
  unfold onPointerMove syncCursor
  dsimp only
  split <;> split <;> split <;> rfl

theorem JSSet.delete_size_le (s : JSSet) (v : Nat) : (s.delete v).size ≤ s.size :=
  countP_map_delete_le s.data v

theorem animationEnd_fields (el : Nat) (w : World) :
    (animationEnd el w).activeEffects.size ≤ w.activeEffects.size ∧
    (animationEnd el w).random = w.random ∧
    (animationEnd el w).lastClickTime = w.lastClickTime ∧
    (animationEnd el w).elements = w.elements := by
  unfold animationEnd
  split
  · exact ⟨JSSet.delete_size_le _ _, rfl, rfl, rfl⟩
  · exact ⟨le_rfl, rfl, rfl, rfl⟩

/-- Every event is handled, keeps the random source, keeps the live set within
the cap, and moves `lastClickTime` only when the event is an accepted click. -/
theorem step_spec (e : Event) (w : World) (hr : RandomOK w)
    (hs : w.activeEffects.size ≤ MAX_EFFECTS) :
    ∃ w', step e w = some w' ∧ RandomOK w' ∧ w'.activeEffects.size ≤ MAX_EFFECTS ∧
      (match e with
        | .click event now =>
          if accepts event now w then w'.lastClickTime = now else w' = w
        | _ => w'.lastClickTime = w.lastClickTime) := by
  cases e with
  | click event now =>
    by_cases ha : accepts event now w
    · obtain ⟨w', h1, h2, h3, h4⟩ := spawnEffect_accepted_fields event now w hr ha.1 ha.2
      refine ⟨w', h1, ?_, h4, ?_⟩
      · intro i; rw [h2]; exact hr i
      · simp only [ha, if_true]; exact h3
    · refine ⟨w, ?_, hr, hs, ?_⟩
      · apply spawnEffect_ignored
        unfold accepts at ha
        by_cases hb : event.button = 0
        · right; by_contra hc; exact ha ⟨hb, hc⟩
        · left; exact hb
      · simp only [ha, if_false]
  | animationEnd el =>
    obtain ⟨h1, h2, h3, _⟩ := animationEnd_fields el w
    refine ⟨_, rfl, ?_, le_trans h1 hs, h3⟩
    intro i; rw [h2]; exact hr i
  | pointerMove event =>
    have h := onPointerMove_clickState event w
    simp only [clickState, Prod.mk.injEq] at h
    refine ⟨_, rfl, ?_, by rw [h.1]; exact hs, h.2.2.1⟩
    intro i; rw [h.2.1]; exact hr i
  | frame =>
    have h := animationFrame_clickState w
    simp only [clickState, Prod.mk.injEq] at h
    refine ⟨_, rfl, ?_, by rw [h.1]; exact hs, h.2.2.1⟩
    intro i; rw [h.2.1]; exact hr i

theorem run_bounded (evs : List Event) : ∀ (w : World), RandomOK w →
    w.activeEffects.size ≤ MAX_EFFECTS →
    ∃ w', run evs w = some w' ∧ RandomOK w' ∧ w'.activeEffects.size ≤ MAX_EFFECTS := by
  induction evs with
  | nil => intro w hr hs; exact ⟨w, rfl, hr, hs⟩
  | cons e es ih =>
    intro w hr hs
    obtain ⟨w₁, h1, hr1, hs1, _⟩ := step_spec e w hr hs
    obtain ⟨w', h2, hr2, hs2⟩ := ih w₁ hr1 hs1
    exact ⟨w', by simp only [run, h1, h2], hr2, hs2⟩

theorem run_append (evs₁ evs₂ : List Event) (w : World) :
    run (evs₁ ++ evs₂) w = (run evs₁ w).bind (run evs₂) := by
  induction evs₁ generalizing w with
  | nil => rfl
  | cons e es ih =>
    simp only [List.cons_append, run]
    cases step e w with
    | none => rfl
    | some w₁ => exact ih w₁

/-- C2: starting from the freshly loaded script (empty live set), for every finite sequence
of events (clicks with any button, timestamp and position, `animationend` notifications,
pointer moves and frames), every list of eyes and every random source with draws in
`[0, 1)`, all handlers return and the live set holds at most 140 effects in the resulting
state; in particular right after every click handler. -/
theorem live_effects_bounded (eyes : List Eye) (innerWidth innerHeight : ℝ) (random : Nat → ℝ)
    (hr : ∀ i, 0 ≤ random i ∧ random i < 1) (evs : List Event) :
    ∃ w, run evs (initial eyes innerWidth innerHeight random) = some w ∧
      w.activeEffects.size ≤ 140 := by
  obtain ⟨w, h1, _, h2⟩ := run_bounded evs (initial eyes innerWidth innerHeight random) hr
    (by simp [initial, JSSet.empty, JSSet.size])
  exact ⟨w, h1, h2⟩

theorem acceptedTimes_spec (evs : List Event) : ∀ (w : World), RandomOK w →
    w.activeEffects.size ≤ MAX_EFFECTS →
    (acceptedTimes evs w).Pairwise (fun a b => a + 120 ≤ b) ∧
    (∀ t ∈ acceptedTimes evs w, w.lastClickTime + 120 ≤ t) ∧
    (run evs w).map (fun w' => w'.lastClickTime)
      = some ((acceptedTimes evs w).getLast?.getD w.lastClickTime) := by
  induction evs with
  | nil => intro w _ _; simp [acceptedTimes, run]
  | cons e es ih =>
    intro w hr hs
    obtain ⟨w₁, h1, hr1, hs1, h4⟩ := step_spec e w hr hs
    obtain ⟨ih1, ih2, ih3⟩ := ih w₁ hr1 hs1
    cases e with
    | click event now =>
      simp only [acceptedTimes, run, h1]
      by_cases ha : accepts event now w
      · simp only [ha, if_true] at h4 ⊢
        rw [h4] at ih2 ih3
        have hnow : w.lastClickTime + 120 ≤ now := by
          have := ha.2
          simp only [MIN_CLICK_INTERVAL, not_lt] at this
          linarith
        refine ⟨List.pairwise_cons.mpr ⟨ih2, ih1⟩, ?_, ?_⟩
        · intro t ht
          rcases List.mem_cons.mp ht with rfl | ht
          · exact hnow
          · have := ih2 t ht; linarith
        · rw [ih3]
          cases hl : acceptedTimes es w₁ with
          | nil => simp
          | cons a l => simp [List.getLast?_cons_cons, List.getLast?_cons]
      · simp only [ha, if_false] at h4 ⊢
        subst h4
        exact ⟨ih1, ih2, ih3⟩
    | animationEnd el =>
      simp only [acceptedTimes, run, h1]
      simp only at h4
      rw [h4] at ih2 ih3
      exact ⟨ih1, ih2, ih3⟩
    | pointerMove event =>
      simp only [acceptedTimes, run, h1]
      simp only at h4
      rw [h4] at ih2 ih3
      exact ⟨ih1, ih2, ih3⟩
    | frame =>
      simp only [acceptedTimes, run, h1]
      simp only at h4
      rw [h4] at ih2 ih3
      exact ⟨ih1, ih2, ih3⟩

/-- C3: for every event sequence run from the freshly loaded script (random draws in
`[0, 1)`): all handlers return, `lastClickTime` is the timestamp of the last accepted click
(0 when there is none), and any two accepted clicks, the earlier at `a` and the later at
`b`, satisfy `a + 120 ≤ b`.  In any state, a click whose timestamp is less than 120 after
`lastClickTime` is not accepted and `spawnEffect` returns the state unchanged (no new
element, same live set, same `lastClickTime`). -/
theorem click_rate_limit (eyes : List Eye) (innerWidth innerHeight : ℝ) (random : Nat → ℝ)
    (hr : ∀ i, 0 ≤ random i ∧ random i < 1) (evs : List Event) :
    (∃ w, run evs (initial eyes innerWidth innerHeight random) = some w ∧
      w.lastClickTime =
        (acceptedTimes evs (initial eyes innerWidth innerHeight random)).getLast?.getD 0) ∧
    (acceptedTimes evs (initial eyes innerWidth innerHeight random)).Pairwise
      (fun a b => a + 120 ≤ b) ∧
    (∀ (w : World) (event : MouseEvent) (now : ℝ), now - w.lastClickTime < 120 →
      ¬ accepts event now w ∧ spawnEffect event now w = some w) := by
  have h0 : (initial eyes innerWidth innerHeight random).activeEffects.size ≤ MAX_EFFECTS := by
    simp [initial, JSSet.empty, JSSet.size]
  obtain ⟨h1, _, h3⟩ := acceptedTimes_spec evs (initial eyes innerWidth innerHeight random) hr h0
  obtain ⟨w, hw, _, _⟩ := run_bounded evs (initial eyes innerWidth innerHeight random) hr h0
  refine ⟨⟨w, hw, ?_⟩, h1, ?_⟩
  · rw [hw] at h3
    simpa [initial] using h3
  · intro w event now h
    have h' : now - w.lastClickTime < MIN_CLICK_INTERVAL := by simpa [MIN_CLICK_INTERVAL] using h
    exact ⟨fun ha => ha.2 h', spawnEffect_ignored event now w (Or.inr h')⟩

theorem JSSet.has_iff (s : JSSet) (v : Nat) : s.has v = true ↔ v ∈ s.toList := by
  unfold JSSet.has JSSet.toList
  rw [List.contains_iff_exists_mem_beq, List.mem_filterMap]
  simp only [beq_iff_eq]
  constructor
  · rintro ⟨a, ha, hv⟩; exact ⟨some v, hv ▸ ha, rfl⟩
  · rintro ⟨a, ha, hv⟩
    cases a with
    | none => cases hv
    | some u => cases hv; exact ⟨_, ha, rfl⟩

theorem JSSet.WF_add (s : JSSet) (v : Nat) (h : s.WF) : (s.add v).WF := by
  unfold JSSet.add
  by_cases hv : s.has v = true
  · simpa [hv] using h
  · have hmem : v ∉ s.toList := fun hm => hv ((JSSet.has_iff s v).mpr hm)
    simp only [hv, Bool.false_eq_true, if_false]
    unfold JSSet.WF JSSet.toList at *
    rw [List.filterMap_append]
    simp only [List.filterMap_cons, id, List.filterMap_nil]
    rw [List.nodup_append]
    refine ⟨h, List.nodup_singleton v, ?_⟩
    intro a ha hb
    rw [List.mem_singleton] at hb
    exact hmem (hb ▸ ha)

theorem JSSet.toList_delete (s : JSSet) (v : Nat) :
    (s.delete v).toList = s.toList.filter (fun c => c ≠ v) := by
  unfold JSSet.delete JSSet.toList
  induction s.data with
  | nil => rfl
  | cons a l ih =>
    cases a with
    | none => simpa [List.filterMap_cons] using ih
    | some u =>
      simp only [List.map_cons, List.filterMap_cons, id] at ih ⊢
      by_cases hu : u = v
      · subst hu
        simp only [if_true, List.filterMap_cons, id]
        rw [List.filter_cons]
        simpa using ih
      · have hne : ¬ (some u = some v) := by simpa using hu
        simp only [hne, if_false, List.filterMap_cons, id]
        rw [List.filter_cons]
        simp only [ne_eq, hu, not_false_eq_true, decide_True, if_true]
        rw [ih]

theorem JSSet.WF_delete (s : JSSet) (v : Nat) (h : s.WF) : (s.delete v).WF := by
  unfold JSSet.WF
  rw [JSSet.toList_delete]
  exact List.Nodup.filter _ h

theorem closed_WF : Closed (fun w => w.activeEffects.WF) :=
  ⟨fun _ w h => JSSet.WF_add w.activeEffects _ h, fun _ h => h⟩

theorem cleanupOldEffects_WF (w : World) (h : w.activeEffects.WF) :
    (cleanupOldEffects w).activeEffects.WF := by
  unfold cleanupOldEffects
  split
  · exact h
  · have hs := JSSet.size_eq_length w.activeEffects
    have := cleanupLoop_spec (w.activeEffects.size - MAX_EFFECTS) 0 w [] w.activeEffects.data
      (by simp) rfl (by simp) h (by simp only [JSSet.toList] at hs; omega)
    unfold JSSet.WF
    rw [this.1]
    exact List.Nodup.sublist (List.drop_sublist _ _) h

/-- The live set never holds a handle twice, in any state the script can reach. -/
theorem run_WF (evs : List Event) : ∀ (w : World), RandomOK w → w.activeEffects.WF →
    w.activeEffects.size ≤ MAX_EFFECTS →
    ∃ w', run evs w = some w' ∧ w'.activeEffects.WF := by
  induction evs with
  | nil => intro w _ h _; exact ⟨w, rfl, h⟩
  | cons e es ih =>
    intro w hr hwf hs
    obtain ⟨w₁, h1, hr1, hs1, _⟩ := step_spec e w hr hs
    have hwf1 : w₁.activeEffects.WF := by
      cases e with
      | click event now =>
        by_cases ha : accepts event now w
        · obtain ⟨v₁, v₂, attack, a1, a2, _, a4, a5, _, _⟩ :=
            spawnEffect_accepted event now w hr ha.1 ha.2
          have e1 : w₁ = cleanupOldEffects (drawPointerEcho ⟨event.clientX, event.clientY⟩ v₂) := by
            have : step (.click event now) w = spawnEffect event now w := rfl
            rw [this, a5] at h1
            exact (Option.some.inj h1).symm
          rw [e1]
          apply cleanupOldEffects_WF
          apply drawPointerEcho_closed closed_WF
          apply specialAttacks_closed closed_WF attack a2 _ _ _ _ a4
          apply pick_closed closed_WF
          exact spawnVariantEffects_closed closed_WF event { w with lastClickTime := now } v₁ hwf a1
        · have : step (.click event now) w = some w := by
            apply spawnEffect_ignored
            unfold accepts at ha
            by_cases hb : event.button = 0
            · right; by_contra hc; exact ha ⟨hb, hc⟩
            · left; exact hb
          rw [this] at h1
          cases h1
          exact hwf
      | animationEnd el =>
        cases h1
        unfold animationEnd
        split
        · exact JSSet.WF_delete _ _ hwf
        · exact hwf
      | pointerMove event =>
        cases h1
        have h := onPointerMove_clickState event w
        simp only [clickState, Prod.mk.injEq] at h
        rw [h.1]; exact hwf
      | frame =>
        cases h1
        have h := animationFrame_clickState w
        simp only [clickState, Prod.mk.injEq] at h
        rw [h.1]; exact hwf
    obtain ⟨w', h2, hwf'⟩ := ih w₁ hr1 hwf1 hs1
    exact ⟨w', by simp only [run, h1, h2], hwf'⟩

theorem hypot_nonneg (x y : ℝ) : 0 ≤ hypot x y := Real.sqrt_nonneg _

theorem hypot_zero : hypot 0 0 = 0 := by simp [hypot]

theorem hypot_scale (c x y : ℝ) (hc : 0 ≤ c) : hypot (c * x) (c * y) = c * hypot x y := by
  unfold hypot
  have : c * x * (c * x) + c * y * (c * y) = c ^ 2 * (x * x + y * y) := by ring
  rw [this, Real.sqrt_mul (sq_nonneg c), Real.sqrt_sq hc]

theorem hypot_cos_sin (θ d : ℝ) (hd : 0 ≤ d) :
    hypot (Real.cos θ * d) (Real.sin θ * d) = d := by
  unfold hypot
  have : Real.cos θ * d * (Real.cos θ * d) + Real.sin θ * d * (Real.sin θ * d) = d ^ 2 := by
    have h := Real.cos_sq_add_sin_sq θ
    calc Real.cos θ * d * (Real.cos θ * d) + Real.sin θ * d * (Real.sin θ * d)
        = (Real.cos θ ^ 2 + Real.sin θ ^ 2) * d ^ 2 := by ring
      _ = d ^ 2 := by rw [h, one_mul]
  rw [this, Real.sqrt_sq hd]

/-- C7: for every eye of width `w ≥ 0` and every pointer position, the pupil offset written
by `updateEyes` has Euclidean length `min (0.25 * w) (0.2 * dist)`, where `dist` is the
distance from the eye centre to the pointer; so it never exceeds `0.25 * w`, and it is 0
when the pointer is at the eye centre (real arithmetic). -/
theorem pupil_offset_magnitude (event : Point) (w : World) (i : Nat) (eye : Eye)
    (hi : w.eyes[i]? = some eye) (hw : 0 ≤ eye.rect.width) :
    ∃ offsetX offsetY,
      ((updateEyes event w).eyes[i]?).bind Eye.pupilTransform = some (offsetX, offsetY) ∧
      hypot offsetX offsetY =
        min (0.25 * eye.rect.width)
          (0.2 * hypot (event.x - (eye.rect.left + eye.rect.width / 2))
            (event.y - (eye.rect.top + eye.rect.height / 2))) ∧
      hypot offsetX offsetY ≤ 0.25 * eye.rect.width ∧
      (event.x = eye.rect.left + eye.rect.width / 2 →
        event.y = eye.rect.top + eye.rect.height / 2 → hypot offsetX offsetY = 0) := by
  have hd : 0 ≤ min (eye.rect.width * 0.25)
      (hypot (event.x - (eye.rect.left + eye.rect.width / 2))
        (event.y - (eye.rect.top + eye.rect.height / 2)) * 0.2) :=
    le_min (by positivity) (mul_nonneg (hypot_nonneg _ _) (by norm_num))
  refine ⟨Real.cos (atan2 (event.y - (eye.rect.top + eye.rect.height / 2))
        (event.x - (eye.rect.left + eye.rect.width / 2))) *
      min (eye.rect.width * 0.25)
        (hypot (event.x - (eye.rect.left + eye.rect.width / 2))
          (event.y - (eye.rect.top + eye.rect.height / 2)) * 0.2),
    Real.sin (atan2 (event.y - (eye.rect.top + eye.rect.height / 2))
        (event.x - (eye.rect.left + eye.rect.width / 2))) *
      min (eye.rect.width * 0.25)
        (hypot (event.x - (eye.rect.left + eye.rect.width / 2))
          (event.y - (eye.rect.top + eye.rect.height / 2)) * 0.2), ?_, ?_, ?_, ?_⟩
  · simp only [updateEyes, List.getElem?_map, hi, Option.map_some', Option.some_bind, updateEye]
  · rw [hypot_cos_sin _ _ hd, mul_comm eye.rect.width, mul_comm (hypot _ _)]
  · rw [hypot_cos_sin _ _ hd]
    calc min (eye.rect.width * 0.25) _ ≤ eye.rect.width * 0.25 := min_le_left _ _
      _ = 0.25 * eye.rect.width := mul_comm _ _
  · intro hx hy
    rw [hypot_cos_sin _ _ hd, hx, hy, sub_self, sub_self, hypot_zero, zero_mul]
    exact min_eq_right (by positivity)

theorem pupil_offset_magnitude_witness :
    oneEyeWorld.eyes[0]? = some ⟨⟨380, 280, 40, 40⟩, none⟩ ∧ (0 : ℝ) ≤ 40 ∧
    ∃ offsetX offsetY,
      ((updateEyes ⟨100000, 300⟩ oneEyeWorld).eyes[0]?).bind Eye.pupilTransform
        = some (offsetX, offsetY) ∧
      hypot offsetX offsetY = min (0.25 * 40) (0.2 * hypot (100000 - (380 + 40 / 2))
        (300 - (280 + 40 / 2))) ∧
      hypot offsetX offsetY ≤ 0.25 * 40 ∧
      ((100000 : ℝ) = 380 + 40 / 2 → (300 : ℝ) = 280 + 40 / 2 → hypot offsetX offsetY = 0) :=
  ⟨rfl, by norm_num,
    pupil_offset_magnitude ⟨100000, 300⟩ oneEyeWorld 0 ⟨⟨380, 280, 40, 40⟩, none⟩ rfl
      (by norm_num)⟩

theorem handlePointerFrame_cursorState (w : World) :
    cursorState (handlePointerFrame w) = cursorState w := by
  unfold handlePointerFrame
  split <;> rfl

theorem cursorLoop_congr (w₁ w₂ : World) (h : cursorState w₁ = cursorState w₂) :
    cursorState (cursorLoop w₁) = cursorState (cursorLoop w₂) := by
  simp only [cursorState, Prod.mk.injEq] at h
  obtain ⟨h1, h2, _, h4, h5⟩ := h
  unfold cursorLoop cursorLoopBranch
  dsimp only
  rw [h1, h2]
  split
  · simp only [cursorState, h4, h5]
  · simp only [cursorState, requestAnimationFrame, h4, h5]

theorem foldl_runCallback_congr (q : List (Nat × FrameCallback)) : ∀ (w₁ w₂ : World),
    cursorState w₁ = cursorState w₂ →
    cursorState (q.foldl runCallback w₁) = cursorState (q.foldl runCallback w₂) := by
  induction q with
  | nil => intro w₁ w₂ h; exact h
  | cons cb q ih =>
    intro w₁ w₂ h
    rw [List.foldl_cons, List.foldl_cons]
    apply ih
    obtain ⟨n, c⟩ := cb
    cases c with
    | cursorLoop => exact cursorLoop_congr w₁ w₂ h
    | handlePointerFrame =>
      simp only [runCallback]
      rw [handlePointerFrame_cursorState, handlePointerFrame_cursorState, h]

theorem foldl_runCallback_no_cursor (q : List (Nat × FrameCallback)) : ∀ (w : World),
    q.countP (fun cb => cb.2 = .cursorLoop) = 0 →
    cursorState (q.foldl runCallback w) = cursorState w := by
  induction q with
  | nil => intro w _; rfl
  | cons cb q ih =>
    intro w h
    obtain ⟨n, c⟩ := cb
    cases c with
    | cursorLoop => simp [List.countP_cons] at h
    | handlePointerFrame =>
      rw [List.foldl_cons, ih _ (by simpa [List.countP_cons] using h)]
      exact handlePointerFrame_cursorState w

theorem foldl_runCallback_one_cursor (q : List (Nat × FrameCallback)) : ∀ (w : World),
    q.countP (fun cb => cb.2 = .cursorLoop) = 1 →
    cursorState (q.foldl runCallback w) = cursorState (cursorLoop w) := by
  induction q with
  | nil => intro w h; simp at h
  | cons cb q ih =>
    intro w h
    obtain ⟨n, c⟩ := cb
    cases c with
    | cursorLoop =>
      rw [List.foldl_cons]
      exact foldl_runCallback_no_cursor q _ (by simpa [List.countP_cons] using h)
    | handlePointerFrame =>
      rw [List.foldl_cons, ih _ (by simpa [List.countP_cons] using h)]
      exact cursorLoop_congr _ _ (handlePointerFrame_cursorState w)

theorem animationFrame_cursor (w : World) (hq : cursorCallbacks w = 1) :
    cursorState (animationFrame w) = cursorState (cursorLoop { w with frameQueue := [] }) := by
  unfold animationFrame
  exact foldl_runCallback_one_cursor w.frameQueue _ hq

theorem cursorLoop_stop (w : World) (h : cursorDistance w < 0.5) :
    (cursorLoop w).cursorCurrent = w.cursorTarget ∧ (cursorLoop w).cursorRafId = none ∧
    (cursorLoop w).frameQueue = w.frameQueue ∧ (cursorLoop w).cursorTarget = w.cursorTarget ∧
    (cursorLoop w).cursorStyle = some w.cursorTarget := by
  unfold cursorDistance at h
  have hb : cursorLoopBranch w
      = { w with cursorCurrent := ⟨w.cursorTarget.x, w.cursorTarget.y⟩, cursorRafId := none } := by
    unfold cursorLoopBranch
    exact if_pos h
  unfold cursorLoop
  rw [hb]
  exact ⟨rfl, rfl, rfl, rfl, rfl⟩

theorem cursorLoop_move (w : World) (h : ¬ cursorDistance w < 0.5) :
    (cursorLoop w).cursorTarget = w.cursorTarget ∧
    (cursorLoop w).cursorTarget.x - (cursorLoop w).cursorCurrent.x
      = 0.6 * (w.cursorTarget.x - w.cursorCurrent.x) ∧
    (cursorLoop w).cursorTarget.y - (cursorLoop w).cursorCurrent.y
      = 0.6 * (w.cursorTarget.y - w.cursorCurrent.y) ∧
    (cursorLoop w).cursorRafId = some (w.frameRequests + 1) ∧
    (cursorLoop w).frameQueue = w.frameQueue ++ [(w.frameRequests + 1, .cursorLoop)] := by
  unfold cursorDistance at h
  have hb : cursorLoopBranch w
      = { (requestAnimationFrame .cursorLoop { w with
            cursorCurrent := ⟨w.cursorCurrent.x + (w.cursorTarget.x - w.cursorCurrent.x) * 0.4,
              w.cursorCurrent.y + (w.cursorTarget.y - w.cursorCurrent.y) * 0.4⟩ }).2 with
          cursorRafId := some (w.frameRequests + 1) } := by
    unfold cursorLoopBranch
    exact if_neg h
  unfold cursorLoop
  rw [hb]
  refine ⟨rfl, ?_, ?_, rfl, rfl⟩
  · show w.cursorTarget.x - (w.cursorCurrent.x + (w.cursorTarget.x - w.cursorCurrent.x) * 0.4)
      = 0.6 * (w.cursorTarget.x - w.cursorCurrent.x)
    ring
  · show w.cursorTarget.y - (w.cursorCurrent.y + (w.cursorTarget.y - w.cursorCurrent.y) * 0.4)
      = 0.6 * (w.cursorTarget.y - w.cursorCurrent.y)
    ring

theorem cursorDistance_move (w : World) (h : ¬ cursorDistance w < 0.5) :
    cursorDistance (cursorLoop w) = 0.6 * cursorDistance w := by
  obtain ⟨_, hx, hy, _⟩ := cursorLoop_move w h
  unfold cursorDistance at *
  rw [hx, hy, hypot_scale _ _ _ (by norm_num)]

theorem cursorDistance_congr (w₁ w₂ : World) (h : cursorState w₁ = cursorState w₂) :
    cursorDistance w₁ = cursorDistance w₂ := by
  simp only [cursorState, Prod.mk.injEq] at h
  unfold cursorDistance
  rw [h.1, h.2.1]

theorem cursor_frames (n : Nat) : ∀ (w : World),
    cursorCallbacks w = 1 → 0.6 ^ n * cursorDistance w < 0.5 →
    ∃ m, m ≤ n ∧
      (∀ k, k < m → ¬ cursorDistance (animationFrame^[k] w) < 0.5) ∧
      cursorDistance (animationFrame^[m] w) < 0.5 ∧
      (animationFrame^[m + 1] w).cursorCurrent = w.cursorTarget ∧
      (animationFrame^[m + 1] w).cursorTarget = w.cursorTarget ∧
      (animationFrame^[m + 1] w).cursorRafId = none ∧
      (animationFrame^[m + 1] w).frameQueue = [] := by
  have hstopcase : ∀ w : World, cursorCallbacks w = 1 → cursorDistance w < 0.5 →
      (animationFrame w).cursorCurrent = w.cursorTarget ∧
      (animationFrame w).cursorTarget = w.cursorTarget ∧
      (animationFrame w).cursorRafId = none ∧ (animationFrame w).frameQueue = [] := by
    intro w hq hd
    have hd'' : cursorDistance { w with frameQueue := [] } < 0.5 := hd
    obtain ⟨h1, h2, h3, h4, _⟩ := cursorLoop_stop _ hd''
    have hc := animationFrame_cursor w hq
    simp only [cursorState, Prod.mk.injEq] at hc
    obtain ⟨c1, c2, c3, c4, _⟩ := hc
    exact ⟨c2.trans h1, c1.trans h4, c3.trans h2, c4.trans h3⟩
  induction n with
  | zero =>
    intro w hq hd
    have hd' : cursorDistance w < 0.5 := by simpa using hd
    refine ⟨0, le_rfl, fun k hk => absurd hk (Nat.not_lt_zero k), hd', ?_⟩
    simp only [Nat.zero_add, Function.iterate_one]
    exact hstopcase w hq hd'
  | succ n ih =>
    intro w hq hd
    by_cases hstop : cursorDistance w < 0.5
    · refine ⟨0, Nat.zero_le _, fun k hk => absurd hk (Nat.not_lt_zero k), hstop, ?_⟩
      simp only [Nat.zero_add, Function.iterate_one]
      exact hstopcase w hq hstop
    · have hmove : ¬ cursorDistance { w with frameQueue := [] } < 0.5 := hstop
      obtain ⟨ht, _, _, _, hq'⟩ := cursorLoop_move _ hmove
      have hc := animationFrame_cursor w hq
      have hdist : cursorDistance (animationFrame w) = 0.6 * cursorDistance w := by
        rw [cursorDistance_congr _ _ hc, cursorDistance_move _ hmove]
        rfl
      simp only [cursorState, Prod.mk.injEq] at hc
      obtain ⟨c1, _, _, c4, _⟩ := hc
      have ht' : (animationFrame w).cursorTarget = w.cursorTarget := c1.trans ht
      have hq1 : cursorCallbacks (animationFrame w) = 1 := by
        unfold cursorCallbacks
        rw [c4, hq']
        simp
      have hd1 : 0.6 ^ n * cursorDistance (animationFrame w) < 0.5 := by
        rw [hdist]
        calc (0.6 : ℝ) ^ n * (0.6 * cursorDistance w) = 0.6 ^ (n + 1) * cursorDistance w := by ring
          _ < 0.5 := hd
      obtain ⟨m, hm, hbefore, hat, h1, h2, h3, h4⟩ := ih (animationFrame w) hq1 hd1
      refine ⟨m + 1, Nat.succ_le_succ hm, ?_, ?_, ?_⟩
      · intro k hk
        cases k with
        | zero => exact hstop
        | succ k =>
          rw [Function.iterate_succ_apply]
          exact hbefore k (Nat.lt_of_succ_lt_succ hk)
      · rw [Function.iterate_succ_apply]; exact hat
      · rw [Function.iterate_succ_apply]
        exact ⟨h1.trans ht', h2.trans ht', h3, h4⟩

theorem exists_frames (d : ℝ) (hd : 0 ≤ d) : ∃ n : Nat, 0.6 ^ n * d < 0.5 := by
  obtain ⟨n, hn⟩ := exists_pow_lt_of_lt_one (show (0 : ℝ) < 0.5 / (d + 1) by positivity)
    (show (0.6 : ℝ) < 1 by norm_num)
  refine ⟨n, ?_⟩
  have hpos : (0 : ℝ) < d + 1 := by linarith
  have h1 : (0.6 : ℝ) ^ n * (d + 1) < 0.5 := by
    rwa [lt_div_iff₀ hpos] at hn
  have h2 : (0 : ℝ) ≤ 0.6 ^ n := by positivity
  nlinarith

/-- C5: when one `cursorLoop` callback is queued, then for every current and every target
position there is a number `m` of frames such that the first `m` frames take the moving
branch, frame `m + 1` takes the stopping branch, and after it the current position equals
the target exactly, `cursorRafId` is `null` and no callback is queued; the target never
changes.  Every moving step multiplies both coordinates of `target - current` by exactly
`0.6` and keeps the loop scheduled; every stopping step snaps to the target, clears
`cursorRafId` and queues nothing (real arithmetic). -/
theorem cursor_loop_terminates (w : World) (hq : cursorCallbacks w = 1) :
    (∃ m,
      (∀ k, k < m → ¬ cursorDistance (animationFrame^[k] w) < 0.5) ∧
      cursorDistance (animationFrame^[m] w) < 0.5 ∧
      (animationFrame^[m + 1] w).cursorCurrent = w.cursorTarget ∧
      (animationFrame^[m + 1] w).cursorTarget = w.cursorTarget ∧
      (animationFrame^[m + 1] w).cursorRafId = none ∧
      (animationFrame^[m + 1] w).frameQueue = []) ∧
    (∀ v : World, ¬ cursorDistance v < 0.5 →
      (cursorLoop v).cursorTarget = v.cursorTarget ∧
      (cursorLoop v).cursorTarget.x - (cursorLoop v).cursorCurrent.x
        = 0.6 * (v.cursorTarget.x - v.cursorCurrent.x) ∧
      (cursorLoop v).cursorTarget.y - (cursorLoop v).cursorCurrent.y
        = 0.6 * (v.cursorTarget.y - v.cursorCurrent.y) ∧
      (cursorLoop v).cursorRafId ≠ none) ∧
    (∀ v : World, cursorDistance v < 0.5 →
      (cursorLoop v).cursorCurrent = v.cursorTarget ∧ (cursorLoop v).cursorRafId = none ∧
      (cursorLoop v).frameQueue = v.frameQueue) := by
  refine ⟨?_, ?_, ?_⟩
  · obtain ⟨n, hn⟩ := exists_frames (cursorDistance w) (hypot_nonneg _ _)
    obtain ⟨m, _, h⟩ := cursor_frames n w hq hn
    exact ⟨m, h⟩
  · intro v hv
    obtain ⟨h1, h2, h3, h4, _⟩ := cursorLoop_move v hv
    exact ⟨h1, h2, h3, by rw [h4]; simp⟩
  · intro v hv
    obtain ⟨h1, h2, h3, _⟩ := cursorLoop_stop v hv
    exact ⟨h1, h2, h3⟩

theorem cursor_loop_terminates_witness :
    cursorCallbacks cursorWorld = 1 ∧
    cursorWorld.cursorCurrent = ⟨0, 0⟩ ∧ cursorWorld.cursorTarget = ⟨100, 100⟩ ∧
    ∃ m,
      (∀ k, k < m → ¬ cursorDistance (animationFrame^[k] cursorWorld) < 0.5) ∧
      cursorDistance (animationFrame^[m] cursorWorld) < 0.5 ∧
      (animationFrame^[m + 1] cursorWorld).cursorCurrent = ⟨100, 100⟩ ∧
      (animationFrame^[m + 1] cursorWorld).cursorTarget = ⟨100, 100⟩ ∧
      (animationFrame^[m + 1] cursorWorld).cursorRafId = none ∧
      (animationFrame^[m + 1] cursorWorld).frameQueue = [] :=
  ⟨rfl, rfl, rfl, (cursor_loop_terminates cursorWorld rfl).1⟩

theorem rand_elements (a b : ℝ) (w : World) : (rand a b w).2.elements = w.elements := rfl

theorem pick_elements {α : Type} (l : List α) (w : World) : (pick l w).2.elements = w.elements :=
  rfl

theorem registerEffect_length (e : Effect) (w : World) :
    (registerEffect e w).elements.length = w.elements.length + 1 := by
  simp [registerEffect]

theorem foldl_count {β : Type} (f : World → β → World) (m : Nat)
    (hf : ∀ w b, (f w b).elements.length = w.elements.length + m) (l : List β) (w : World) :
    (l.foldl f w).elements.length = w.elements.length + m * l.length := by
  induction l generalizing w with
  | nil => simp
  | cons b l ih => rw [List.foldl_cons, ih, hf, List.length_cons, Nat.mul_succ]; omega

theorem forLoop_count (n m : Nat) (body : Nat → World → World)
    (hb : ∀ i w, (body i w).elements.length = w.elements.length + m) (w : World) :
    (forLoop n body w).elements.length = w.elements.length + m * n := by
  unfold forLoop
  rw [foldl_count _ m (fun w i => hb i w), List.length_range]

theorem forEach_count {α : Type} (l : List α) (m : Nat) (body : α → Nat → World → World)
    (hb : ∀ x i w, (body x i w).elements.length = w.elements.length + m) (w : World) :
    (forEach l body w).elements.length = w.elements.length + m * l.length := by
  unfold forEach
  rw [foldl_count (fun w (ix : Nat × α) => body ix.2 ix.1 w) m (fun w ix => hb ix.2 ix.1 w),
    List.enum_length]

theorem getEyeCenters_length (w : World) : (getEyeCenters w).length = w.eyes.length := by
  simp [getEyeCenters]

theorem shootEyeBeam_count (pointer : Point) (palette : List String) (center : EyeCenter)
    (index : Nat) (w : World) :
    (shootEyeBeam pointer palette center index w).elements.length = w.elements.length + 2 := by
  simp [shootEyeBeam, registerEffect, rand, mathRandom]

theorem shootEyeBeams_count (pointer : Point) (w : World) (hr : RandomOK w) :
    ∃ w', shootEyeBeams pointer w = some w' ∧ registered w w' = 2 * w.eyes.length := by
  obtain ⟨v, hv, _⟩ := pick_some palettes w hr (by decide)
  unfold shootEyeBeams registered
  dsimp only
  rw [hv]
  split
  · rename_i h
    refine ⟨_, rfl, ?_⟩
    have : w.eyes.length = 0 := by rw [← getEyeCenters_length, h]; rfl
    simp [this, pick_elements]
  · rename_i h _; cases h
  · rename_i palette c cs _ h
    refine ⟨_, rfl, ?_⟩
    rw [forEach_count _ 2 _ (fun x i w => shootEyeBeam_count pointer _ x i w), pick_elements,
      ← getEyeCenters_length w, h]
    omega

theorem fireBulletBurst_count (pointer : Point) (w : World) :
    registered w (fireBulletBurst pointer w) = 3 * w.eyes.length := by
  unfold fireBulletBurst registered
  dsimp only
  rw [forEach_count _ 3, getEyeCenters_length]
  · omega
  · intro center _ w
    rw [forLoop_count 3 1]
    intro _ w
    simp [fireBullet, registerEffect, rand, mathRandom]

theorem roundHalfEven_bounds (y : ℝ) :
    Int.floor y ≤ roundHalfEven y ∧ roundHalfEven y ≤ Int.floor y + 1 := by
  unfold roundHalfEven
  dsimp only
  split
  · omega
  · split
    · omega
    · split <;> omega

theorem roundSum24_bounds (x : ℝ) (h2 : 2 ≤ x) (h4 : x < 4) :
    2 ≤ roundSum24 x ∧ roundSum24 x ≤ 4 := by
  obtain ⟨hlo, hhi⟩ := roundHalfEven_bounds (x * 2 ^ 51)
  have hfl : (2 ^ 52 : ℤ) ≤ Int.floor (x * 2 ^ 51) := by
    rw [Int.le_floor]; push_cast; nlinarith
  have hfh : Int.floor (x * 2 ^ 51) < (2 ^ 53 : ℤ) := by
    rw [Int.floor_lt]; push_cast; nlinarith
  have h1 : (2 ^ 52 : ℤ) ≤ roundHalfEven (x * 2 ^ 51) := le_trans hfl hlo
  have h2' : roundHalfEven (x * 2 ^ 51) ≤ (2 ^ 53 : ℤ) := by omega
  have c1 : ((2 ^ 52 : ℤ) : ℝ) ≤ ((roundHalfEven (x * 2 ^ 51) : ℤ) : ℝ) := by exact_mod_cast h1
  have c2 : ((roundHalfEven (x * 2 ^ 51) : ℤ) : ℝ) ≤ ((2 ^ 53 : ℤ) : ℝ) := by exact_mod_cast h2'
  push_cast at c1 c2
  unfold roundSum24
  constructor
  · rw [le_div_iff₀ (by positivity)]; nlinarith
  · rw [div_le_iff₀ (by positivity)]; nlinarith

theorem launchMissiles_registered (pointer : Point) (w : World) :
    registered w (launchMissiles pointer w)
      = (Int.floor (roundSum24 (w.random w.randomCalls * (4 - 2) + 2))).toNat := by
  unfold launchMissiles registered
  dsimp only
  rw [forLoop_count _ 1]
  · simp [rand, mathRandom]
  · intro _ w
    simp [launchMissile, registerEffect, rand, mathRandom]

theorem launchMissiles_count (pointer : Point) (w : World) (hr : RandomOK w) :
    2 ≤ registered w (launchMissiles pointer w) ∧ registered w (launchMissiles pointer w) ≤ 4 := by
  obtain ⟨h0, h1⟩ := hr w.randomCalls
  rw [launchMissiles_registered]
  obtain ⟨b1, b2⟩ := roundSum24_bounds (w.random w.randomCalls * (4 - 2) + 2)
    (by nlinarith) (by nlinarith)
  have hlo : (2 : ℤ) ≤ Int.floor (roundSum24 (w.random w.randomCalls * (4 - 2) + 2)) := by
    rw [Int.le_floor]; push_cast; exact b1
  have hhi : Int.floor (roundSum24 (w.random w.randomCalls * (4 - 2) + 2)) < (5 : ℤ) := by
    rw [Int.floor_lt]; push_cast; linarith
  omega

/-- With the largest double below 1 as the draw, the sum `rand(2, 4)` rounds to
`4` and four missiles are registered. -/
theorem launchMissiles_four (pointer : Point) (w : World)
    (h : w.random w.randomCalls = 1 - 1 / 2 ^ 53) :
    registered w (launchMissiles pointer w) = 4 := by
  rw [launchMissiles_registered, h]
  have hy : ((1 - 1 / 2 ^ 53 : ℝ) * (4 - 2) + 2) * 2 ^ 51 = 9007199254740991 + 1 / 2 := by
    norm_num
  have hfloor : Int.floor ((9007199254740991 : ℝ) + 1 / 2) = 9007199254740991 := by
    rw [Int.floor_eq_iff]
    constructor <;> norm_num
  have hround : roundHalfEven ((9007199254740991 : ℝ) + 1 / 2) = 9007199254740992 := by
    unfold roundHalfEven
    dsimp only
    rw [hfloor]
    have e : ((9007199254740991 : ℝ) + 1 / 2) - ((9007199254740991 : ℤ) : ℝ) = 1 / 2 := by
      push_cast; ring
    rw [e]
    simp only [lt_self_iff_false, if_false]
    norm_num
  have hsum : roundSum24 ((1 - 1 / 2 ^ 53 : ℝ) * (4 - 2) + 2) = 4 := by
    unfold roundSum24
    rw [hy, hround]
    norm_num
  rw [hsum]
  have : Int.floor (4 : ℝ) = 4 := by
    rw [Int.floor_eq_iff]; constructor <;> norm_num
  rw [this]
  rfl

theorem spawnInkTrail_count (pointer : Point) (w : World) :
    registered w (spawnInkTrail pointer w) = 14 := by
  unfold spawnInkTrail registered
  dsimp only
  rw [forLoop_count 14 1]
  · omega
  · intro _ w
    simp [spawnInkBlob, registerEffect, rand, mathRandom]

theorem dropTears_count (w : World) : registered w (dropTears w) = w.eyes.length := by
  unfold dropTears registered
  dsimp only
  rw [forEach_count _ 1, getEyeCenters_length]
  · omega
  · intro _ _ w
    simp [dropTear, registerEffect, rand, mathRandom]

theorem chainLightning_count (pointer : Point) (w : World) :
    registered w (chainLightning pointer w) = w.eyes.length := by
  unfold chainLightning registered
  dsimp only
  rw [forEach_count _ 1, getEyeCenters_length]
  · omega
  · intro _ _ w
    simp [lightningBolt, registerEffect, rand, mathRandom]

theorem bubbleBurst_count (pointer : Point) (w : World) :
    registered w (bubbleBurst pointer w) = 8 := by
  unfold bubbleBurst registered
  dsimp only
  rw [forLoop_count 8 1]
  · omega
  · intro _ w
    simp [spawnBubble, registerEffect, rand, mathRandom]

theorem portalSummon_count (pointer : Point) (w : World) :
    registered w (portalSummon pointer w) = 5 := by
  unfold portalSummon registered
  dsimp only
  rw [forLoop_count 4 1]
  · simp only [registerEffect, rand, mathRandom, List.length_append, List.length_singleton]
    omega
  · intro _ w
    simp [spawnMiniStar, registerEffect, rand, mathRandom]

theorem audioPulse_count (pointer : Point) (w : World) :
    registered w (audioPulse pointer w) = 3 := by
  unfold audioPulse registered
  dsimp only
  rw [forLoop_count 3 1]
  · omega
  · intro _ w
    simp [registerEffect]

theorem droneOrbit_count (pointer : Point) (w : World) :
    registered w (droneOrbit pointer w) = 1 := by
  simp [droneOrbit, registered, registerEffect, rand, mathRandom]

theorem coinMagnet_count (pointer : Point) (w : World) :
    registered w (coinMagnet pointer w) = 6 := by
  unfold coinMagnet registered
  dsimp only
  rw [forLoop_count 6 1]
  · omega
  · intro _ w
    simp [spawnCoin, registerEffect, rand, mathRandom]

theorem pixelDisperse_count (pointer : Point) (w : World) :
    registered w (pixelDisperse pointer w) = 24 := by
  unfold pixelDisperse registered
  dsimp only
  rw [forLoop_count 24 1]
  · omega
  · intro _ w
    simp [spawnPixel, registerEffect, rand, mathRandom]

/-- C10, counterexample: with no tracked eye, the generator `dropTears` (entry 4
of `specialAttacks`) returns and registers no element, so its count is not between 1
and 24. -/
theorem dropTears_no_eyes_registers_nothing :
    ∃ attack, specialAttacks[4]? = some attack ∧
      ∃ w', attack ⟨500, 300⟩ noEyesWorld = some w' ∧
        ¬ (1 ≤ registered noEyesWorld w' ∧ registered noEyesWorld w' ≤ 24) := by
  refine ⟨_, rfl, dropTears noEyesWorld, rfl, ?_⟩
  rw [dropTears_count]
  simp [noEyesWorld, initial]

/-- C10, amended: `specialAttacks` has twelve generators and, for every pointer, every
list of `n` tracked eyes and every random source with draws in `[0, 1)`, each of them
returns.  The eight generators that do not read the eyes (missiles, ink, bubbles, portal,
audio rings, drone, coins, pixels) register between 1 and 24 elements.  The four that read
the eyes register one group per eye, `2 * n` (eye beams), `3 * n` (bullets), `n` (tears)
and `n` (lightning) elements, so their count is between 1 and 24 exactly when `n` is at
least 1 and at most 12, 8, 24 and 24 respectively. -/
theorem special_attack_counts (pointer : Point) (w : World)
    (hr : ∀ i, 0 ≤ w.random i ∧ w.random i < 1) :
    specialAttacks.length = 12 ∧
    (∀ attack ∈ specialAttacks, ∃ w', attack pointer w = some w') ∧
    (∃ w', specialAttacks[0]?.bind (fun attack => attack pointer w) = some w' ∧
      shootEyeBeams pointer w = some w' ∧ registered w w' = 2 * w.eyes.length ∧
      ((1 ≤ registered w w' ∧ registered w w' ≤ 24) ↔
        (1 ≤ w.eyes.length ∧ w.eyes.length ≤ 12))) ∧
    (specialAttacks[1]?.bind (fun attack => attack pointer w) = some (fireBulletBurst pointer w) ∧
      registered w (fireBulletBurst pointer w) = 3 * w.eyes.length ∧
      ((1 ≤ registered w (fireBulletBurst pointer w) ∧
          registered w (fireBulletBurst pointer w) ≤ 24) ↔
        (1 ≤ w.eyes.length ∧ w.eyes.length ≤ 8))) ∧
    (specialAttacks[2]?.bind (fun attack => attack pointer w) = some (launchMissiles pointer w) ∧
      1 ≤ registered w (launchMissiles pointer w) ∧
      registered w (launchMissiles pointer w) ≤ 24) ∧
    (specialAttacks[3]?.bind (fun attack => attack pointer w) = some (spawnInkTrail pointer w) ∧
      1 ≤ registered w (spawnInkTrail pointer w) ∧
      registered w (spawnInkTrail pointer w) ≤ 24) ∧
    (specialAttacks[4]?.bind (fun attack => attack pointer w) = some (dropTears w) ∧
      registered w (dropTears w) = w.eyes.length ∧
      ((1 ≤ registered w (dropTears w) ∧ registered w (dropTears w) ≤ 24) ↔
        (1 ≤ w.eyes.length ∧ w.eyes.length ≤ 24))) ∧
    (specialAttacks[5]?.bind (fun attack => attack pointer w) = some (chainLightning pointer w) ∧
      registered w (chainLightning pointer w) = w.eyes.length ∧
      ((1 ≤ registered w (chainLightning pointer w) ∧
          registered w (chainLightning pointer w) ≤ 24) ↔
        (1 ≤ w.eyes.length ∧ w.eyes.length ≤ 24))) ∧
    (specialAttacks[6]?.bind (fun attack => attack pointer w) = some (bubbleBurst pointer w) ∧
      1 ≤ registered w (bubbleBurst pointer w) ∧
      registered w (bubbleBurst pointer w) ≤ 24) ∧
    (specialAttacks[7]?.bind (fun attack => attack pointer w) = some (portalSummon pointer w) ∧
      1 ≤ registered w (portalSummon pointer w) ∧
      registered w (portalSummon pointer w) ≤ 24) ∧
    (specialAttacks[8]?.bind (fun attack => attack pointer w) = some (audioPulse pointer w) ∧
      1 ≤ registered w (audioPulse pointer w) ∧
      registered w (audioPulse pointer w) ≤ 24) ∧
    (specialAttacks[9]?.bind (fun attack => attack pointer w) = some (droneOrbit pointer w) ∧
      1 ≤ registered w (droneOrbit pointer w) ∧
      registered w (droneOrbit pointer w) ≤ 24) ∧
    (specialAttacks[10]?.bind (fun attack => attack pointer w) = some (coinMagnet pointer w) ∧
      1 ≤ registered w (coinMagnet pointer w) ∧
      registered w (coinMagnet pointer w) ≤ 24) ∧
    (specialAttacks[11]?.bind (fun attack => attack pointer w) = some (pixelDisperse pointer w) ∧
      1 ≤ registered w (pixelDisperse pointer w) ∧
      registered w (pixelDisperse pointer w) ≤ 24) := by
  obtain ⟨w', h1, h2⟩ := shootEyeBeams_count pointer w hr
  have hb := fireBulletBurst_count pointer w
  have hm := launchMissiles_count pointer w hr
  have hi := spawnInkTrail_count pointer w
  have ht := dropTears_count w
  have hl := chainLightning_count pointer w
  have hbu := bubbleBurst_count pointer w
  have hp := portalSummon_count pointer w
  have ha := audioPulse_count pointer w
  have hd := droneOrbit_count pointer w
  have hc := coinMagnet_count pointer w
  have hpx := pixelDisperse_count pointer w
  exact ⟨rfl, fun attack ha => specialAttacks_total attack ha pointer w hr,
    ⟨w', h1, h1, h2, by omega⟩,
    ⟨rfl, hb, by omega⟩,
    ⟨rfl, by omega, by omega⟩,
    ⟨rfl, by omega, by omega⟩,
    ⟨rfl, ht, by omega⟩,
    ⟨rfl, hl, by omega⟩,
    ⟨rfl, by omega, by omega⟩,
    ⟨rfl, by omega, by omega⟩,
    ⟨rfl, by omega, by omega⟩,
    ⟨rfl, by omega, by omega⟩,
    ⟨rfl, by omega, by omega⟩,
    ⟨rfl, by omega, by omega⟩⟩

/-- Elements registered by a loop whose every iteration registers `m` elements
and draws `d` random numbers: the elements of iteration `i` sit at positions
`m * i, ..., m * i + m - 1` after the elements present before the loop. -/
theorem foldl_blocks {β : Type} (r : Nat → ℝ) (m d : Nat) (f : World → β → World)
    (Q : β → Nat → List Effect → Prop)
    (hf : ∀ b w, w.random = r → ∃ es, (f w b).elements = w.elements ++ es ∧ es.length = m ∧
      Q b w.randomCalls es ∧ (f w b).randomCalls = w.randomCalls + d ∧ (f w b).random = r)
    (xs : List β) : ∀ (w : World), w.random = r →
      (xs.foldl f w).random = r ∧
      (xs.foldl f w).randomCalls = w.randomCalls + d * xs.length ∧
      (xs.foldl f w).elements.length = w.elements.length + m * xs.length ∧
      (∀ k, k < w.elements.length → (xs.foldl f w).elements[k]? = w.elements[k]?) ∧
      (∀ i b, xs[i]? = some b → ∃ es, es.length = m ∧ Q b (w.randomCalls + d * i) es ∧
        ∀ j, j < m → (xs.foldl f w).elements[w.elements.length + m * i + j]? = es[j]?) := by
  induction xs with
  | nil => intro w hw; simp [hw]
  | cons b xs ih =>
    intro w hw
    obtain ⟨es, he, hlen, hq, hrc, hr⟩ := hf b w hw
    obtain ⟨h1, h2, h3, h4, h5⟩ := ih (f w b) hr
    have hl : (f w b).elements.length = w.elements.length + m := by rw [he]; simp [hlen]
    refine ⟨h1, ?_, ?_, ?_, ?_⟩
    · rw [List.foldl_cons, h2, hrc, List.length_cons, Nat.mul_succ]; omega
    · rw [List.foldl_cons, h3, hl, List.length_cons, Nat.mul_succ]; omega
    · intro k hk
      rw [List.foldl_cons, h4 k (by omega), he, List.getElem?_append_left hk]
    · intro i c hi
      cases i with
      | zero =>
        simp only [List.getElem?_cons_zero, Option.some.injEq] at hi
        subst hi
        refine ⟨es, hlen, by simpa using hq, ?_⟩
        intro j hj
        rw [List.foldl_cons, h4 _ (by omega), he,
          List.getElem?_append_right (by omega)]
        congr 1
        omega
      | succ i =>
        simp only [List.getElem?_cons_succ] at hi
        obtain ⟨es', hl', hq', hidx⟩ := h5 i c hi
        refine ⟨es', hl', ?_, ?_⟩
        · have : w.randomCalls + d * (i + 1) = (f w b).randomCalls + d * i := by
            rw [hrc, Nat.mul_succ]; omega
          rw [this]; exact hq'
        · intro j hj
          rw [List.foldl_cons, ← hidx j hj, hl]
          congr 1
          rw [Nat.mul_succ]; omega

theorem shootEyeBeam_block (pointer : Point) (palette : List String) (center : EyeCenter)
    (index : Nat) (w : World) :
    ∃ es, (shootEyeBeam pointer palette center index w).elements = w.elements ++ es ∧
      es.length = 2 ∧ IsBeamPair pointer center.x center.y es ∧
      (shootEyeBeam pointer palette center index w).randomCalls = w.randomCalls + 2 ∧
      (shootEyeBeam pointer palette center index w).random = w.random := by
  refine ⟨[beamElement pointer palette center index (rand 420 680 w).1,
      gazeBurstElement palette center index
        (rand 500 900 (registerEffect (beamElement pointer palette center index
          (rand 420 680 w).1) (rand 420 680 w).2)).1], ?_, rfl, ⟨_, _, rfl, ?_⟩, ?_, ?_⟩
  · simp only [shootEyeBeam, registerEffect, rand, mathRandom, List.append_assoc,
      List.singleton_append]
  · refine ⟨rfl, ?_, ?_, ?_, rfl, ?_, ?_⟩ <;> simp [beamElement, gazeBurstElement, List.lookup]
  · simp [shootEyeBeam, registerEffect, rand, mathRandom]
  · simp [shootEyeBeam, registerEffect, rand, mathRandom]

theorem getEyeCenters_getElem? (w : World) (i : Nat) (eye : Eye) (h : w.eyes[i]? = some eye) :
    (getEyeCenters w)[i]? = some ⟨eye, eye.rect.left + eye.rect.width / 2,
      eye.rect.top + eye.rect.height / 2⟩ := by
  simp [getEyeCenters, List.getElem?_map, h]

/-- C8: for every list of `n` eyes, every pointer and every random source with draws in
`[0, 1)`, `shootEyeBeams` returns and registers exactly `2 * n` elements after the ones
already registered: for eye `i`, at positions `2 * i` and `2 * i + 1`, a beam
(`effect effect-laser`) and a burst (`effect effect-gaze-burst`), both with `left`/`top`
at the centre of that eye, the beam with `--beam-length` equal to the Euclidean distance
from that centre to the pointer. -/
theorem shootEyeBeams_elements (pointer : Point) (w : World)
    (hr : ∀ i, 0 ≤ w.random i ∧ w.random i < 1) :
    ∃ w', shootEyeBeams pointer w = some w' ∧
      w'.elements.length = w.elements.length + 2 * w.eyes.length ∧
      (∀ k, k < w.elements.length → w'.elements[k]? = w.elements[k]?) ∧
      ∀ i eye, w.eyes[i]? = some eye →
        ∃ beam burst,
          w'.elements[w.elements.length + 2 * i]? = some beam ∧
          w'.elements[w.elements.length + 2 * i + 1]? = some burst ∧
          beam.className = "effect effect-laser" ∧
          beam.style.lookup "left" = some (.px (eye.rect.left + eye.rect.width / 2)) ∧
          beam.style.lookup "top" = some (.px (eye.rect.top + eye.rect.height / 2)) ∧
          beam.style.lookup "--beam-length" =
            some (.px (hypot (pointer.x - (eye.rect.left + eye.rect.width / 2))
              (pointer.y - (eye.rect.top + eye.rect.height / 2)))) ∧
          burst.className = "effect effect-gaze-burst" ∧
          burst.style.lookup "left" = some (.px (eye.rect.left + eye.rect.width / 2)) ∧
          burst.style.lookup "top" = some (.px (eye.rect.top + eye.rect.height / 2)) := by
  obtain ⟨palette, hv, _⟩ := pick_some palettes w hr (by decide)
  have hblocks := foldl_blocks w.random 2 2
    (fun w (ix : Nat × EyeCenter) => shootEyeBeam pointer palette ix.2 ix.1 w)
    (fun ix _ es => IsBeamPair pointer ix.2.x ix.2.y es)
    (fun ix w' hw' => by
      obtain ⟨es, h1, h2, h3, h4, h5⟩ := shootEyeBeam_block pointer palette ix.2 ix.1 w'
      exact ⟨es, h1, h2, h3, h4, h5.trans hw'⟩)
    (getEyeCenters w).enum (pick palettes w).2 rfl
  obtain ⟨_, _, hlen, hpre, hidx⟩ := hblocks
  have hsome : shootEyeBeams pointer w
      = some (forEach (getEyeCenters w) (shootEyeBeam pointer palette) (pick palettes w).2) := by
    unfold shootEyeBeams
    dsimp only
    rw [hv]
    split
    · rename_i h; rw [h]; rfl
    · rename_i h _; cases h
    · rename_i h1 h2
      cases h1
      rw [h2]
  refine ⟨_, hsome, ?_, ?_, ?_⟩
  · rw [List.enum_length, getEyeCenters_length] at hlen
    exact hlen
  · exact hpre
  · intro i eye hi
    have hc := getEyeCenters_getElem? w i eye hi
    obtain ⟨es, _, ⟨beam, burst, rfl, hq⟩, hj⟩ := hidx i (i, _)
      (by rw [List.getElem?_enum, hc]; rfl)
    refine ⟨beam, burst, ?_, ?_, hq⟩
    · simpa using hj 0 (by omega)
    · simpa using hj 1 (by omega)

theorem hypot_axis (a : ℝ) : hypot a 0 = |a| := by
  unfold hypot
  rw [mul_zero, add_zero]
  exact Real.sqrt_mul_self_eq_abs a

theorem shootEyeBeams_elements_witness :
    (∀ i, 0 ≤ twoEyesWorld.random i ∧ twoEyesWorld.random i < 1) ∧
    ∃ w' beam₀ burst₀ beam₁ burst₁,
      shootEyeBeams ⟨500, 300⟩ twoEyesWorld = some w' ∧
      w'.elements = [beam₀, burst₀, beam₁, burst₁] ∧
      beam₀.className = "effect effect-laser" ∧
      beam₀.style.lookup "--beam-length" = some (.px 100) ∧
      burst₀.className = "effect effect-gaze-burst" ∧
      beam₁.className = "effect effect-laser" ∧
      beam₁.style.lookup "--beam-length" = some (.px 100) ∧
      burst₁.className = "effect effect-gaze-burst" := by
  have hr : ∀ i, 0 ≤ twoEyesWorld.random i ∧ twoEyesWorld.random i < 1 := by
    intro i; simp [twoEyesWorld, initial]
  obtain ⟨w', h1, h2, _, h4⟩ := shootEyeBeams_elements ⟨500, 300⟩ twoEyesWorld hr
  obtain ⟨beam₀, burst₀, a1, a2, a3, _, _, a4, a5, _⟩ :=
    h4 0 ⟨⟨380, 280, 40, 40⟩, none⟩ rfl
  obtain ⟨beam₁, burst₁, b1, b2, b3, _, _, b4, b5, _⟩ :=
    h4 1 ⟨⟨580, 280, 40, 40⟩, none⟩ rfl
  have hl : w'.elements.length = 4 := by rw [h2]; simp [twoEyesWorld, initial]
  have he : w'.elements = [beam₀, burst₀, beam₁, burst₁] := by
    simp only [twoEyesWorld, initial, List.length_nil, Nat.zero_add, Nat.mul_zero,
      Nat.mul_one] at a1 a2 b1 b2
    apply List.ext_getElem?
    intro n
    match n with
    | 0 => simpa using a1
    | 1 => simpa using a2
    | 2 => simpa using b1
    | 3 => simpa using b2
    | n + 4 =>
      rw [List.getElem?_eq_none (by omega)]
      simp
  have e0 : hypot ((500 : ℝ) - (380 + 40 / 2)) (300 - (280 + 40 / 2)) = 100 := by
    have : (300 : ℝ) - (280 + 40 / 2) = 0 := by norm_num
    rw [this, hypot_axis]; norm_num
  have e1 : hypot ((500 : ℝ) - (580 + 40 / 2)) (300 - (280 + 40 / 2)) = 100 := by
    have : (300 : ℝ) - (280 + 40 / 2) = 0 := by norm_num
    rw [this, hypot_axis]; norm_num [abs_of_neg]
  rw [e0] at a4
  rw [e1] at b4
  exact ⟨hr, w', beam₀, burst₀, beam₁, burst₁, h1, he, a3, a4, a5, b3, b4, b5⟩

theorem mem_effectVariants (v : EffectVariant) (hv : v ∈ effectVariants) :
    ∃ base, base ∈ baseTypes ∧ v.name = base.name ∧ v.className = base.className ∧
      v.count = base.count := by
  rw [effectVariants_eq] at hv
  simp only [List.mem_flatMap, List.mem_singleton] at hv
  obtain ⟨base, hb, p, _, s, _, rfl⟩ := hv
  exact ⟨base, hb, rfl, rfl, rfl⟩

/-- Archetype table: the count and the class name belonging to each name. -/
theorem variant_archetype (v : EffectVariant) (hv : v ∈ effectVariants) :
    v.count.getD 1 = (if v.name = "spark" then 10 else if v.name = "comet" then 4 else 1) ∧
    ((v.className = "effect-spark" ∨ v.className = "effect-comet") ↔
      (v.name = "spark" ∨ v.name = "comet")) := by
  obtain ⟨base, hb, h1, h2, h3⟩ := mem_effectVariants v hv
  rw [h1, h2, h3]
  simp only [baseTypes, List.mem_cons, List.mem_singleton, List.not_mem_nil, or_false] at hb
  rcases hb with rfl | rfl | rfl | rfl | rfl | rfl <;> simp

theorem lookup_directional (event : MouseEvent) (variant : EffectVariant) (duration size : ℝ)
    (angle distance : ℝ) (rot : List (String × StyleVal)) :
    let style := variantStyle event variant duration size ++ sparkStyle angle distance ++ rot
    style.lookup "--spark-x" = some (.px (Real.cos angle * distance)) ∧
    style.lookup "--spark-y" = some (.px (Real.sin angle * distance * -1)) ∧
    style.lookup "--comet-x" = some (.px (Real.cos angle * distance)) ∧
    style.lookup "--comet-y" = some (.px (Real.sin angle * distance * -1)) := by
  refine ⟨?_, ?_, ?_, ?_⟩ <;>
    simp [variantStyle, sparkStyle, List.lookup]

theorem spawnVariantElement_spark (event : MouseEvent) (variant : EffectVariant)
    (w : World) (hd : variant.className = "effect-spark" ∨ variant.className = "effect-comet") :
    spawnVariantElement event variant w =
      registerEffect
        { className := "effect " ++ variant.className
          style := variantStyle event variant
                 (rand ((variant.duration : ℝ) * 0.8) ((variant.duration : ℝ) * 1.2) w).1
                 (rand ((variant.size : ℝ) * 0.8) ((variant.size : ℝ) * 1.2)
                   (rand ((variant.duration : ℝ) * 0.8) ((variant.duration : ℝ) * 1.2) w).2).1 ++
               sparkStyle (w.random (w.randomCalls + 2) * (Real.pi * 2 - 0) + 0)
                 (w.random (w.randomCalls + 3) * (200 - 60) + 60) ++
               rotateStyle variant }
        { w with randomCalls := w.randomCalls + 4 } := by
  unfold spawnVariantElement
  dsimp only
  rw [if_pos hd]
  rfl
theorem spawnVariantElement_directional (event : MouseEvent) (variant : EffectVariant)
    (w : World) (hd : variant.className = "effect-spark" ∨ variant.className = "effect-comet") :
    ∃ es, (spawnVariantElement event variant w).elements = w.elements ++ es ∧ es.length = 1 ∧
      IsDirectional w.random w.randomCalls es ∧
      (spawnVariantElement event variant w).randomCalls = w.randomCalls + 4 ∧
      (spawnVariantElement event variant w).random = w.random := by
  rw [spawnVariantElement_spark event variant w hd]
  obtain ⟨h1, h2, h3, h4⟩ := lookup_directional event variant
    (rand ((variant.duration : ℝ) * 0.8) ((variant.duration : ℝ) * 1.2) w).1
    (rand ((variant.size : ℝ) * 0.8) ((variant.size : ℝ) * 1.2)
      (rand ((variant.duration : ℝ) * 0.8) ((variant.duration : ℝ) * 1.2) w).2).1
    (w.random (w.randomCalls + 2) * (Real.pi * 2 - 0) + 0)
    (w.random (w.randomCalls + 3) * (200 - 60) + 60) (rotateStyle variant)
  exact ⟨_, rfl, rfl, ⟨_, _, _, rfl, rfl, rfl, h1, h2, h3, h4⟩, rfl, rfl⟩

theorem spawnVariantElement_count (event : MouseEvent) (variant : EffectVariant) (w : World) :
    (spawnVariantElement event variant w).elements.length = w.elements.length + 1 := by
  unfold spawnVariantElement
  dsimp only
  split <;> exact registerEffect_length _ _

theorem rand_range (r lo hi : ℝ) (h0 : 0 ≤ r) (h1 : r < 1) (hlh : lo < hi) :
    lo ≤ r * (hi - lo) + lo ∧ r * (hi - lo) + lo < hi := by
  have : 0 < hi - lo := by linarith
  constructor <;> nlinarith

/-- C9: for every random source with draws in `[0, 1)`, `spawnVariantEffects` returns and
registers exactly `variant.count` elements for the picked variant: 10 for spark, 4 for
comet, 1 for every other archetype.  For spark and comet the `i`-th element takes its
angle and its distance from its own two random draws, the angle lies in `[0, 2π)`, the
distance in `[60, 200]`, its offset properties are `(cos angle * distance,
sin angle * distance * -1)`, and that vector has length `distance`. -/
theorem spawnVariantEffects_elements (event : MouseEvent) (w : World)
    (hr : ∀ i, 0 ≤ w.random i ∧ w.random i < 1) :
    ∃ variant w',
      (pick effectVariants w).1 = some variant ∧ variant ∈ effectVariants ∧
      spawnVariantEffects event w = some w' ∧
      registered w w' = variant.count.getD 1 ∧
      variant.count.getD 1 =
        (if variant.name = "spark" then 10 else if variant.name = "comet" then 4 else 1) ∧
      (variant.name = "spark" ∨ variant.name = "comet" →
        ∀ i, i < variant.count.getD 1 →
          ∃ el angle distance,
            w'.elements[w.elements.length + i]? = some el ∧
            angle = w.random (w.randomCalls + 1 + 4 * i + 2) * (Real.pi * 2 - 0) + 0 ∧
            distance = w.random (w.randomCalls + 1 + 4 * i + 3) * (200 - 60) + 60 ∧
            0 ≤ angle ∧ angle < 2 * Real.pi ∧ 60 ≤ distance ∧ distance ≤ 200 ∧
            el.style.lookup "--spark-x" = some (.px (Real.cos angle * distance)) ∧
            el.style.lookup "--spark-y" = some (.px (Real.sin angle * distance * -1)) ∧
            el.style.lookup "--comet-x" = some (.px (Real.cos angle * distance)) ∧
            el.style.lookup "--comet-y" = some (.px (Real.sin angle * distance * -1)) ∧
            hypot (Real.cos angle * distance) (Real.sin angle * distance * -1) = distance) := by
  obtain ⟨variant, hv, hmem⟩ :=
    pick_some effectVariants w hr (by rw [effectVariants_length]; omega)
  obtain ⟨hcount, hdir⟩ := variant_archetype variant hmem
  have hsome : spawnVariantEffects event w
      = some (forLoop (variant.count.getD 1) (fun _ w => spawnVariantElement event variant w)
          (pick effectVariants w).2) := by
    unfold spawnVariantEffects
    rw [hv]
  refine ⟨variant, _, hv, hmem, hsome, ?_, hcount, ?_⟩
  · unfold registered
    rw [forLoop_count _ 1 _ (fun _ w => spawnVariantElement_count event variant w), pick_elements]
    omega
  · intro hname i hi
    have hd := hdir.mpr hname
    have hblocks := foldl_blocks w.random 1 4
      (fun w (_ : Nat) => spawnVariantElement event variant w)
      (fun _ rc es => IsDirectional w.random rc es)
      (fun _ w' hw' => by
        obtain ⟨es, h1, h2, h3, h4, h5⟩ := spawnVariantElement_directional event variant w' hd
        rw [hw'] at h3
        exact ⟨es, h1, h2, h3, h4, h5.trans hw'⟩)
      (List.range (variant.count.getD 1)) (pick effectVariants w).2 rfl
    obtain ⟨_, _, _, _, hidx⟩ := hblocks
    obtain ⟨es, _, ⟨el, angle, distance, rfl, ha, hdist, s1, s2, s3, s4⟩, hj⟩ := hidx i i
      (by rw [List.getElem?_range hi])
    have hrc : (pick effectVariants w).2.randomCalls = w.randomCalls + 1 := rfl
    rw [hrc] at ha hdist
    obtain ⟨a0, a1⟩ := hr (w.randomCalls + 1 + 4 * i + 2)
    obtain ⟨d0, d1⟩ := hr (w.randomCalls + 1 + 4 * i + 3)
    have hpi := Real.pi_pos
    have hang := rand_range _ 0 (Real.pi * 2) a0 a1 (by linarith)
    have hdst := rand_range _ 60 200 d0 d1 (by norm_num)
    rw [← ha] at hang
    rw [← hdist] at hdst
    refine ⟨el, angle, distance, ?_, ha, hdist, hang.1, by linarith [hang.2], hdst.1,
      hdst.2.le, s1, s2, s3, s4, ?_⟩
    · have := hj 0 (by omega)
      simpa [forLoop, pick_elements] using this
    · have hneg : Real.sin angle * distance * -1 = Real.sin (-angle) * distance := by
        rw [Real.sin_neg]; ring
      have hcos : Real.cos angle * distance = Real.cos (-angle) * distance := by
        rw [Real.cos_neg]
      rw [hneg, hcos]
      exact hypot_cos_sin _ _ (by linarith [hdst.1])

theorem syncCursor_pointer (event : Point) (w : World) :
    outstanding (syncCursor event w) = outstanding w ∧
    (syncCursor event w).pendingPointer = w.pendingPointer ∧
    (syncCursor event w).rafId = w.rafId ∧
    (syncCursor event w).updateEyesCalls = w.updateEyesCalls := by
  unfold syncCursor
  dsimp only
  split <;> split <;>
    simp [outstanding, requestAnimationFrame, List.countP_append, List.countP_cons]

theorem onPointerMove_pointer (event : Point) (w : World) :
    outstanding (onPointerMove event w) = outstanding w + (if w.rafId.isNone then 1 else 0) ∧
    (onPointerMove event w).pendingPointer = some event ∧
    (onPointerMove event w).rafId
      = (if w.rafId.isNone then some (w.frameRequests + 1) else w.rafId) ∧
    (onPointerMove event w).updateEyesCalls = w.updateEyesCalls := by
  unfold onPointerMove
  dsimp only
  obtain ⟨h1, h2, h3, h4⟩ := syncCursor_pointer event
    (if w.rafId.isNone then
      { (requestAnimationFrame .handlePointerFrame
          { w with pendingPointer := some ⟨event.x, event.y⟩ }).2 with
        rafId := some (requestAnimationFrame .handlePointerFrame
          { w with pendingPointer := some ⟨event.x, event.y⟩ }).1 }
    else { w with pendingPointer := some ⟨event.x, event.y⟩ })
  rw [h1, h2, h3, h4]
  by_cases hn : w.rafId.isNone
  · simp [hn, outstanding, requestAnimationFrame, List.countP_append, List.countP_cons]
  · simp [hn, outstanding]

theorem cursorLoop_pointer (w : World) :
    outstanding (cursorLoop w) = outstanding w ∧
    (cursorLoop w).pendingPointer = w.pendingPointer ∧
    (cursorLoop w).rafId = w.rafId ∧
    (cursorLoop w).updateEyesCalls = w.updateEyesCalls := by
  unfold cursorLoop cursorLoopBranch
  dsimp only
  split <;> simp [outstanding, requestAnimationFrame, List.countP_append, List.countP_cons]

theorem handlePointerFrame_none (w : World) (h : w.pendingPointer = none) :
    handlePointerFrame w = w := by
  unfold handlePointerFrame
  rw [h]

theorem handlePointerFrame_some (w : World) (s : Point) (h : w.pendingPointer = some s) :
    outstanding (handlePointerFrame w) = outstanding w ∧
    (handlePointerFrame w).pendingPointer = none ∧
    (handlePointerFrame w).rafId = none ∧
    (handlePointerFrame w).updateEyesCalls = w.updateEyesCalls ++ [s] := by
  unfold handlePointerFrame
  rw [h]
  exact ⟨rfl, rfl, rfl, rfl⟩

theorem foldl_runCallback_outstanding (q : List (Nat × FrameCallback)) : ∀ (w : World),
    outstanding (q.foldl runCallback w) = outstanding w := by
  induction q with
  | nil => intro w; rfl
  | cons cb q ih =>
    intro w
    rw [List.foldl_cons, ih]
    unfold runCallback
    split
    · exact (cursorLoop_pointer w).1
    · cases hp : w.pendingPointer with
      | none => rw [handlePointerFrame_none w hp]
      | some s => exact (handlePointerFrame_some w s hp).1

theorem foldl_runCallback_idle (q : List (Nat × FrameCallback)) : ∀ (w : World),
    (w.pendingPointer = none ∨ q.countP (fun cb => cb.2 = .handlePointerFrame) = 0) →
    (q.foldl runCallback w).pendingPointer = w.pendingPointer ∧
    (q.foldl runCallback w).rafId = w.rafId ∧
    (q.foldl runCallback w).updateEyesCalls = w.updateEyesCalls := by
  induction q with
  | nil => intro w _; exact ⟨rfl, rfl, rfl⟩
  | cons cb q ih =>
    intro w h
    rw [List.foldl_cons]
    obtain ⟨n, c⟩ := cb
    cases c with
    | cursorLoop =>
      obtain ⟨_, h2, h3, h4⟩ := cursorLoop_pointer w
      have := ih (cursorLoop w) (by
        rcases h with h | h
        · left; rw [h2, h]
        · right; simpa [List.countP_cons] using h)
      simp only [runCallback]
      rw [this.1, this.2.1, this.2.2, h2, h3, h4]
      exact ⟨rfl, rfl, rfl⟩
    | handlePointerFrame =>
      have hp : w.pendingPointer = none := by
        rcases h with h | h
        · exact h
        · simp [List.countP_cons] at h
      simp only [runCallback]
      rw [handlePointerFrame_none w hp]
      exact ih w (Or.inl hp)

theorem foldl_runCallback_fire (q : List (Nat × FrameCallback)) : ∀ (w : World) (s : Point),
    w.pendingPointer = some s → 0 < q.countP (fun cb => cb.2 = .handlePointerFrame) →
    (q.foldl runCallback w).pendingPointer = none ∧
    (q.foldl runCallback w).rafId = none ∧
    (q.foldl runCallback w).updateEyesCalls = w.updateEyesCalls ++ [s] := by
  induction q with
  | nil => intro w s _ h; simp at h
  | cons cb q ih =>
    intro w s hs h
    rw [List.foldl_cons]
    obtain ⟨n, c⟩ := cb
    cases c with
    | cursorLoop =>
      obtain ⟨_, h2, h3, h4⟩ := cursorLoop_pointer w
      have := ih (cursorLoop w) s (by rw [h2, hs]) (by simpa [List.countP_cons] using h)
      simp only [runCallback]
      rw [this.1, this.2.1, this.2.2, h4]
      exact ⟨rfl, rfl, rfl⟩
    | handlePointerFrame =>
      obtain ⟨_, h2, h3, h4⟩ := handlePointerFrame_some w s hs
      have := foldl_runCallback_idle q (handlePointerFrame w) (Or.inl h2)
      simp only [runCallback]
      rw [this.1, this.2.1, this.2.2, h2, h3, h4]
      exact ⟨rfl, rfl, rfl⟩

theorem animationFrame_outstanding (w : World) : outstanding (animationFrame w) = 0 := by
  unfold animationFrame
  rw [foldl_runCallback_outstanding]
  rfl

theorem animationFrame_fire (w : World) (s : Point) (hs : w.pendingPointer = some s)
    (ho : outstanding w = 1) :
    (animationFrame w).pendingPointer = none ∧ (animationFrame w).rafId = none ∧
    (animationFrame w).updateEyesCalls = w.updateEyesCalls ++ [s] := by
  unfold animationFrame
  exact foldl_runCallback_fire w.frameQueue { w with frameQueue := [] } s hs
    (by unfold outstanding at ho; omega)

theorem animationFrame_idle (w : World) (hs : w.pendingPointer = none) :
    (animationFrame w).pendingPointer = none ∧ (animationFrame w).rafId = w.rafId ∧
    (animationFrame w).updateEyesCalls = w.updateEyesCalls := by
  unfold animationFrame
  have := foldl_runCallback_idle w.frameQueue { w with frameQueue := [] } (Or.inl hs)
  exact ⟨this.1.trans hs, this.2.1, this.2.2⟩

theorem PointerInv_move (event : Point) (w : World) (h : PointerInv w) :
    PointerInv (onPointerMove event w) := by
  obtain ⟨h1, h2, h3⟩ := h
  obtain ⟨m1, m2, m3, _⟩ := onPointerMove_pointer event w
  unfold PointerInv
  rw [m1, m2, m3]
  cases hr : w.rafId with
  | none =>
    have hp : w.pendingPointer.isSome = false := by
      cases hpp : w.pendingPointer.isSome with
      | false => rfl
      | true => have := h3.mpr hpp; rw [hr] at this; simp at this
    have h0 : outstanding w = 0 := by
      have : ¬ outstanding w = 1 := fun e => by have := h2.mp e; rw [hp] at this; simp at this
      omega
    simp [h0]
  | some id =>
    have hp : w.pendingPointer.isSome = true := h3.mp (by rw [hr]; rfl)
    have h0 : outstanding w = 1 := h2.mpr hp
    simp [h0]

theorem PointerInv_frame (w : World) (h : PointerInv w) : PointerInv (animationFrame w) := by
  obtain ⟨h1, h2, h3⟩ := h
  have ho := animationFrame_outstanding w
  unfold PointerInv
  rw [ho]
  cases hp : w.pendingPointer with
  | none =>
    obtain ⟨f1, f2, _⟩ := animationFrame_idle w hp
    rw [f1, f2]
    have : w.rafId.isSome = false := by
      cases hr : w.rafId.isSome with
      | false => rfl
      | true => have := h3.mp hr; rw [hp] at this; simp at this
    simp [this]
  | some s =>
    obtain ⟨f1, f2, _⟩ := animationFrame_fire w s hp (h2.mpr (by rw [hp]; rfl))
    rw [f1, f2]
    simp

theorem run_pointer (evs : List Event) : ∀ (w : World), PointerInv w →
    (∀ e ∈ evs, e.isMoveOrFrame = true) →
    ∃ w', run evs w = some w' ∧ PointerInv w' ∧
      w'.pendingPointer = evs.foldl sampleStep w.pendingPointer ∧
      w'.updateEyesCalls.length ≤ w.updateEyesCalls.length + framesFired evs := by
  induction evs with
  | nil => intro w h _; exact ⟨w, rfl, h, rfl, by simp [framesFired]⟩
  | cons e es ih =>
    intro w h hev
    have hes : ∀ e ∈ es, e.isMoveOrFrame = true := fun e he => hev e (by simp [he])
    have he := hev e (by simp)
    cases e with
    | click event now => simp [Event.isMoveOrFrame] at he
    | animationEnd el => simp [Event.isMoveOrFrame] at he
    | pointerMove event =>
      obtain ⟨w', r1, r2, r3, r4⟩ := ih (onPointerMove event w) (PointerInv_move event w h) hes
      obtain ⟨_, m2, _, m4⟩ := onPointerMove_pointer event w
      refine ⟨w', by simp only [run, step, r1], r2, ?_, ?_⟩
      · rw [r3, m2]; rfl
      · rw [m4] at r4; simpa [framesFired] using r4
    | frame =>
      obtain ⟨w', r1, r2, r3, r4⟩ := ih (animationFrame w) (PointerInv_frame w h) hes
      have hcalls : (animationFrame w).updateEyesCalls.length ≤ w.updateEyesCalls.length + 1 ∧
          (animationFrame w).pendingPointer = none := by
        cases hp : w.pendingPointer with
        | none =>
          obtain ⟨f1, _, f3⟩ := animationFrame_idle w hp
          rw [f3]; exact ⟨by omega, f1⟩
        | some s =>
          obtain ⟨f1, _, f3⟩ := animationFrame_fire w s hp (h.2.1.mpr (by rw [hp]; rfl))
          rw [f3]; exact ⟨by simp, f1⟩
      refine ⟨w', by simp only [run, step, r1], r2, ?_, ?_⟩
      · rw [r3, hcalls.2]; rfl
      · simp only [framesFired]; omega

/-- C6: for every sequence of pointer moves and frames run from the freshly loaded script:
at most one `handlePointerFrame` callback is queued; one is queued exactly when a sample
is stored, exactly when `rafId` is set; the stored sample is the one of the most recent
move since the last frame; the number of `updateEyes` calls is at most the number of
frames.  In the state reached, a move while a callback is queued only replaces the stored
sample (same `rafId`, still one callback, no `updateEyes` call), a move while none is
queued queues exactly one, and a frame calls `updateEyes` exactly once with the stored
sample and clears the sample and `rafId` when a sample is stored, and does not call it
otherwise. -/
theorem pointer_frames_coalesce (eyes : List Eye) (innerWidth innerHeight : ℝ)
    (random : Nat → ℝ) (evs : List Event) (hevs : ∀ e ∈ evs, e.isMoveOrFrame = true) :
    ∃ w, run evs (initial eyes innerWidth innerHeight random) = some w ∧
      outstanding w ≤ 1 ∧
      (outstanding w = 1 ↔ w.pendingPointer.isSome) ∧
      (w.rafId.isSome ↔ w.pendingPointer.isSome) ∧
      w.pendingPointer = latestSample evs ∧
      w.updateEyesCalls.length ≤ framesFired evs ∧
      (∀ event : Point, outstanding w = 1 →
        outstanding (onPointerMove event w) = 1 ∧
        (onPointerMove event w).rafId = w.rafId ∧
        (onPointerMove event w).pendingPointer = some event ∧
        (onPointerMove event w).updateEyesCalls = w.updateEyesCalls) ∧
      (∀ event : Point, outstanding w = 0 →
        outstanding (onPointerMove event w) = 1 ∧
        (onPointerMove event w).pendingPointer = some event) ∧
      (∀ s : Point, w.pendingPointer = some s →
        (animationFrame w).updateEyesCalls = w.updateEyesCalls ++ [s] ∧
        (animationFrame w).pendingPointer = none ∧
        (animationFrame w).rafId = none ∧
        outstanding (animationFrame w) = 0) ∧
      (w.pendingPointer = none →
        (animationFrame w).updateEyesCalls = w.updateEyesCalls ∧
        outstanding (animationFrame w) = 0) := by
  have h0 : PointerInv (initial eyes innerWidth innerHeight random) := by
    simp [PointerInv, initial, outstanding]
  obtain ⟨w, r1, ⟨i1, i2, i3⟩, r3, r4⟩ := run_pointer evs _ h0 hevs
  refine ⟨w, r1, i1, i2, i3, r3, by simpa [initial] using r4, ?_, ?_, ?_, ?_⟩
  · intro event ho
    obtain ⟨m1, m2, m3, m4⟩ := onPointerMove_pointer event w
    have hsome : w.rafId.isSome = true := i3.mpr (i2.mp ho)
    have hnone : w.rafId.isNone = false := by
      cases hr : w.rafId with
      | none => rw [hr] at hsome; simp at hsome
      | some id => rfl
    rw [m1, m3, hnone]
    exact ⟨by simpa using ho, by simp, m2, m4⟩
  · intro event ho
    obtain ⟨m1, m2, _, _⟩ := onPointerMove_pointer event w
    have hnone : w.rafId.isNone = true := by
      cases hr : w.rafId with
      | none => rfl
      | some id =>
        have := i2.mpr (i3.mp (by rw [hr]; rfl))
        omega
    rw [m1, hnone]
    exact ⟨by simp [ho], m2⟩
  · intro s hs
    obtain ⟨f1, f2, f3⟩ := animationFrame_fire w s hs (i2.mpr (by rw [hs]; rfl))
    exact ⟨f3, f1, f2, animationFrame_outstanding w⟩
  · intro hs
    exact ⟨(animationFrame_idle w hs).2.2, animationFrame_outstanding w⟩

theorem JSSet.WF_empty : JSSet.empty.WF := by
  simp [JSSet.WF, JSSet.toList, JSSet.empty]

theorem live_effects_bounded_witness :
    (∀ i : Nat, 0 ≤ (fun _ : Nat => (0 : ℝ)) i ∧ (fun _ : Nat => (0 : ℝ)) i < 1) ∧
    ∃ w, run sampleClicks (initial [] 800 600 (fun _ => 0)) = some w ∧
      w.activeEffects.size ≤ 140 :=
  ⟨fun _ => ⟨le_refl _, by norm_num⟩,
    live_effects_bounded [] 800 600 (fun _ => 0) (fun _ => ⟨le_refl _, by norm_num⟩)
      sampleClicks⟩

theorem click_rate_limit_witness :
    (∀ i : Nat, 0 ≤ (fun _ : Nat => (0 : ℝ)) i ∧ (fun _ : Nat => (0 : ℝ)) i < 1) ∧
    (acceptedTimes sampleClicks (initial [] 800 600 (fun _ => 0))).Pairwise
      (fun a b => a + 120 ≤ b) ∧
    spawnEffect ⟨0, 510, 300⟩ 1050
        { initial [] 800 600 (fun _ => 0) with lastClickTime := 1000 }
      = some { initial [] 800 600 (fun _ => 0) with lastClickTime := 1000 } := by
  have h := click_rate_limit [] 800 600 (fun _ => 0) (fun _ => ⟨le_refl _, by norm_num⟩)
    sampleClicks
  refine ⟨fun _ => ⟨le_refl _, by norm_num⟩, h.2.1, ?_⟩
  exact (h.2.2 { initial [] 800 600 (fun _ => 0) with lastClickTime := 1000 }
    ⟨0, 510, 300⟩ 1050 (by norm_num)).2

theorem pointer_frames_coalesce_witness :
    (∀ e ∈ sampleMoves, e.isMoveOrFrame = true) ∧
    ∃ w, run sampleMoves (initial [] 800 600 (fun _ => 0)) = some w ∧
      outstanding w ≤ 1 ∧ w.pendingPointer = latestSample sampleMoves ∧
      w.updateEyesCalls.length ≤ framesFired sampleMoves := by
  have hm : ∀ e ∈ sampleMoves, e.isMoveOrFrame = true := by
    intro e he
    simp only [sampleMoves, List.mem_cons, List.mem_singleton, List.not_mem_nil, or_false] at he
    rcases he with rfl | rfl | rfl | rfl <;> rfl
  obtain ⟨w, h1, h2, _, _, h5, h6, _⟩ :=
    pointer_frames_coalesce [] 800 600 (fun _ => 0) sampleMoves hm
  exact ⟨hm, w, h1, h2, h5, h6⟩

theorem spawnVariantEffects_elements_witness :
    (∀ i, 0 ≤ sparkWorld.random i ∧ sparkWorld.random i < 1) ∧
    ∃ variant w', spawnVariantEffects ⟨0, 500, 300⟩ sparkWorld = some w' ∧
      (pick effectVariants sparkWorld).1 = some variant ∧
      variant.name = "spark" ∧ registered sparkWorld w' = 10 := by
  have hr : ∀ i, 0 ≤ sparkWorld.random i ∧ sparkWorld.random i < 1 := by
    intro i; simp only [sparkWorld, initial]; norm_num
  obtain ⟨variant, w', h1, _, h3, h4, h5, _⟩ :=
    spawnVariantEffects_elements ⟨0, 500, 300⟩ sparkWorld hr
  have hfloor : Int.floor ((0.4 : ℝ) * ((effectVariants.length : ℕ) : ℝ)) = 115 := by
    rw [effectVariants_length, Int.floor_eq_iff]
    norm_num
  have hpick : (pick effectVariants sparkWorld).1 = effectVariants[115]? := by
    simp only [pick, mathRandom, sparkWorld, initial, hfloor]
    rfl
  have hget := effectVariants_getElem? 2 4 3 (by omega) (by omega)
  have hname : variant.name = "spark" := by
    rw [hpick] at h1
    have h115 : 48 * 2 + 4 * 4 + 3 = 115 := rfl
    rw [h115, h1] at hget
    have : some variant = some (mkVariant ⟨"spark", "effect-spark", 0.25, some 10⟩ 4
        ["#f6d365", "#fda085"] 3 ⟨"square", "12%", 0⟩) := hget
    cases this
    rfl
  refine ⟨hr, variant, w', h3, h1, hname, ?_⟩
  rw [h4, h5, hname]
  rfl

theorem special_attack_counts_witness :
    (∀ i, 0 ≤ twoEyesWorld.random i ∧ twoEyesWorld.random i < 1) ∧
    specialAttacks.length = 12 ∧
    registered twoEyesWorld (fireBulletBurst ⟨500, 300⟩ twoEyesWorld) = 6 ∧
    1 ≤ registered twoEyesWorld (launchMissiles ⟨500, 300⟩ twoEyesWorld) ∧
    registered twoEyesWorld (launchMissiles ⟨500, 300⟩ twoEyesWorld) ≤ 24 := by
  have hr : ∀ i, 0 ≤ twoEyesWorld.random i ∧ twoEyesWorld.random i < 1 := by
    intro i; simp [twoEyesWorld, initial]
  obtain ⟨h1, _, _, ⟨_, hb, _⟩, ⟨_, hm1, hm2⟩, _⟩ :=
    special_attack_counts ⟨500, 300⟩ twoEyesWorld hr
  refine ⟨hr, h1, ?_, hm1, hm2⟩
  rw [hb]
  simp [twoEyesWorld, initial]

end PaymentExample
